import Mathlib

/-!
LinGoPipes: the redis vector index (`index/vectordb/redis/redis.go`).

A shallow embedding of the redis vector-index backend: the vector codec
(`float64tobytes`, `bytestofloat64`), the reconstruction of search results
(`buildSearchResultsFromQdrantMatches`), the index lifecycle check
(`createIndexIfRequired`) and the `Insert` and `Search` paths.

Conventions.
* A `float64` is represented by its 64-bit IEEE-754 pattern and a `float32`
  by its 32-bit pattern (what `math.Float64bits` / `math.Float32bits` return),
  both as natural numbers.
* A byte is a natural number; a slot of type `byte` holds its value modulo 256.
* A Go string held as a value in a property map is its sequence of bytes;
  map keys, identifiers and error messages are strings.
* A run-time panic of the Go program is the result `none`.
-/

namespace LinGoPipes

/-! ## Floating point conversions -/

/-- Bit pattern of a `float64`, a natural number below `2 ^ 64`. -/
abbrev F64 := Nat

/-- Bit pattern of a `float32`, a natural number below `2 ^ 32`. -/
abbrev F32 := Nat

/-- Shift `sig` right by `sh` bits, rounding to nearest, ties to even. -/
def roundShift (sig sh : Nat) : Nat :=
  let q := sig / 2 ^ sh
  let r := sig % 2 ^ sh
  if 2 ^ sh < 2 * r ∨ (2 * r = 2 ^ sh ∧ q % 2 = 1) then q + 1 else q

/-- The Go conversion `float32(f)` of a `float64`: IEEE-754 narrowing with
round-to-nearest-even. Infinities and overflow give an infinity, a NaN gives a
quiet NaN keeping the top of its payload, values below the single-precision
subnormal range give a signed zero. -/
def float32 (x : Nat) : Nat :=
  let s := x / 2 ^ 63 % 2
  let e := x / 2 ^ 52 % 2048
  let m := x % 2 ^ 52
  if e = 2047 then
    if m = 0 then s * 2 ^ 31 + 0x7F800000
    else s * 2 ^ 31 + 0x7FC00000 + m / 2 ^ 29 % 2 ^ 22
  else if e = 0 then s * 2 ^ 31
  else
    let sig := 2 ^ 52 + m
    let r := if 897 ≤ e then (e - 897) * 2 ^ 23 + roundShift sig 29
             else roundShift sig (926 - e)
    if 0x7F800000 ≤ r then s * 2 ^ 31 + 0x7F800000 else s * 2 ^ 31 + r

/-- Index of the leading one bit of `m`, searched from bit `k` downwards. -/
def leadingBit : Nat → Nat → Nat
  | 0, _ => 0
  | k + 1, m => if 2 ^ (k + 1) ≤ m then k + 1 else leadingBit k m

/-- The Go conversion `float64(f)` of a `float32`: IEEE-754 widening, which is
exact. A single-precision subnormal becomes a normal double; a NaN becomes a
quiet NaN with the same payload. -/
def float64 (b : Nat) : Nat :=
  let s := b / 2 ^ 31 % 2
  let e := b / 2 ^ 23 % 256
  let m := b % 2 ^ 23
  if e = 255 then
    if m = 0 then s * 2 ^ 63 + 0x7FF0000000000000
    else s * 2 ^ 63 + 0x7FF8000000000000 + m % 2 ^ 22 * 2 ^ 29
  else if e = 0 then
    if m = 0 then s * 2 ^ 63
    else
      let k := leadingBit 22 m
      s * 2 ^ 63 + (k + 874) * 2 ^ 52 + (m - 2 ^ k) * 2 ^ (52 - k)
  else s * 2 ^ 63 + (e + 896) * 2 ^ 52 + m * 2 ^ 29

/-- A double is exactly representable in single precision when narrowing it
and widening it again gives the same double. -/
def Representable32 (x : Nat) : Prop := float64 (float32 x) = x

instance (x : Nat) : Decidable (Representable32 x) := by
  unfold Representable32; infer_instance

/-- `math.Float32bits`: the bit pattern of a `float32`, a `uint32`. -/
def Float32bits (f : Nat) : Nat := f % 2 ^ 32

/-- `math.Float32frombits`: the `float32` with the given bit pattern. -/
def Float32frombits (bits : Nat) : Nat := bits % 2 ^ 32

/-! ## Vector codec -/

/-- `binary.LittleEndian.PutUint32(b, v)`: panics when `b` has fewer than four
bytes, otherwise stores the four bytes of `v`, least significant first. -/
def PutUint32 (b : List Nat) (v : Nat) : Option (List Nat) :=
  if 3 < b.length then
    some ((((b.set 0 (v % 256)).set 1 (v / 2 ^ 8 % 256)).set 2 (v / 2 ^ 16 % 256)).set 3
      (v / 2 ^ 24 % 256))
  else none

/-- `binary.LittleEndian.Uint32(b)`: panics when `b` has fewer than four
bytes, otherwise reads four bytes, least significant first. -/
def Uint32 (b : List Nat) : Option Nat :=
  match b with
  | b0 :: b1 :: b2 :: b3 :: _ =>
    some (b0 % 256 + b1 % 256 * 2 ^ 8 + b2 % 256 * 2 ^ 16 + b3 % 256 * 2 ^ 24)
  | _ => none

/-- `float64to32`: every element converted with `float32(f)`. -/
def float64to32 (floats : List F64) : List F32 := floats.map float32

/-- The statement `binary.LittleEndian.PutUint32(byteSlice[i*4:], bits)`: the
slice expression panics when the offset is beyond the length; the write goes
through to `byteSlice`, which shares its storage with the sub-slice. -/
def putUint32At (byteSlice : List Nat) (off v : Nat) : Option (List Nat) :=
  if off ≤ byteSlice.length then
    match PutUint32 (byteSlice.drop off) v with
    | some b => some (byteSlice.take off ++ b)
    | none => none
  else none

/-- The loop of `float64tobytes`, at index `i` with `floats` left to encode. -/
def float64tobytesLoop : List F32 → Nat → List Nat → Option (List Nat)
  | [], _, byteSlice => some byteSlice
  | f :: floats, i, byteSlice =>
    match putUint32At byteSlice (i * 4) (Float32bits f) with
    | some byteSlice' => float64tobytesLoop floats (i + 1) byteSlice'
    | none => none

/-- `float64tobytes`: narrow to single precision, allocate `4 * n` zero bytes
and write every bit pattern little-endian at offset `4 * i`. -/
def float64tobytes (floats64 : List F64) : Option (List Nat) :=
  let floats := float64to32 floats64
  let byteSlice := List.replicate (floats.length * 4) 0
  float64tobytesLoop floats 0 byteSlice

/-- The first loop of `bytestofloat64`, at byte offset `i`. `spare` is the
part of the backing array between the length and the capacity of `byteSlice`:
the slice expression `byteSlice[i : i+4]` is checked against the capacity, the
store `floats[i/4]` against the length of `floats`. -/
def bytestofloat64Loop (byteSlice spare : List Nat) (i : Nat) (floats : List F32) :
    Option (List F32) :=
  if i < byteSlice.length then
    if i + 4 ≤ byteSlice.length + spare.length then
      match Uint32 (((byteSlice ++ spare).drop i).take 4) with
      | some bits =>
        if i / 4 < floats.length then
          bytestofloat64Loop byteSlice spare (i + 4) (floats.set (i / 4) (Float32frombits bits))
        else none
      | none => none
    else none
  else some floats
termination_by byteSlice.length - i
decreasing_by omega

/-- `bytestofloat64`, for a slice `byteSlice` whose backing array continues
with `spare`: read a `float32` every four bytes into a slice of
`len(byteSlice) / 4` values, then widen every value with `float64(f)`. -/
def bytestofloat64Cap (byteSlice spare : List Nat) : Option (List F64) :=
  match bytestofloat64Loop byteSlice spare 0 (List.replicate (byteSlice.length / 4) 0) with
  | some floats => some (floats.map float64)
  | none => none

/-- `bytestofloat64` on a slice whose capacity equals its length. -/
def bytestofloat64 (byteSlice : List Nat) : Option (List F64) :=
  bytestofloat64Cap byteSlice []

/-- The four bytes of a `uint32`, least significant first. -/
def le32 (v : Nat) : List Nat :=
  [v % 256, v / 2 ^ 8 % 256, v / 2 ^ 16 % 256, v / 2 ^ 24 % 256]

/-! ## Data model -/

/-- The bytes of a string literal of ASCII characters. -/
def ascii (s : String) : List Nat := s.data.map Char.toNat

/-- A value of type `interface{}` stored in a property map: a Go `string`
(its bytes), a `[]byte`, an integer, a `float64` (its bits), a `bool` or `nil`. -/
inductive Value where
  | str (s : List Nat)
  | bytes (b : List Nat)
  | int (n : Int)
  | float (bits : F64)
  | bool (b : Bool)
  | null
  deriving DecidableEq, Repr

/-- A Go `map[string]interface{}` (`types.Meta`, `Document.Properties`), as an
association list read with `Meta.get`: the first binding of a key is its value. -/
abbrev Meta := List (String × Value)

/-- The map read `v, ok := m[k]`. -/
def Meta.get (m : Meta) (k : String) : Option Value :=
  match m with
  | [] => none
  | (k', v) :: rest => if k' = k then some v else Meta.get rest k

/-- The Go statement `delete(m, k)`. -/
def Meta.delete (m : Meta) (k : String) : Meta :=
  match m with
  | [] => []
  | (k', v) :: rest => if k' = k then Meta.delete rest k else (k', v) :: Meta.delete rest k

/-- The Go statement `m[k] = v`. -/
def Meta.set (m : Meta) (k : String) (v : Value) : Meta :=
  (k, v) :: Meta.delete m k

/-- `redisearch.Document`: identifier, score, payload and properties. -/
structure Document where
  Id : String
  Score : F32
  Payload : List Nat
  Properties : Meta
  deriving DecidableEq, Repr

/-- `redisearch.NewDocument(id, score)`: a document with an empty property map. -/
def NewDocument (id : String) (score : F32) : Document :=
  { Id := id, Score := score, Payload := [], Properties := [] }

/-- `Document.Set(name, value)`: `d.Properties[name] = value`. -/
def Document.Set (d : Document) (name : String) (value : Value) : Document :=
  { d with Properties := Meta.set d.Properties name value }

/-- `index.Data`: one record, with identifier, vector and metadata. -/
structure Data where
  ID : String
  Values : List F64
  Metadata : Meta
  deriving DecidableEq, Repr

/-- `index.SearchResult`: a reconstructed record and its score. -/
structure SearchResult where
  Data : Data
  Score : F64
  deriving DecidableEq, Repr

/-- `index.SearchResults`. -/
abbrev SearchResults := List SearchResult

/-- The constant `defaultVectorFieldName`. -/
def defaultVectorFieldName : String := "vec"

/-- The constant `defaultVectorScoreFieldName`. -/
def defaultVectorScoreFieldName : String := "__vec_score"

/-- The constant `errUnknownIndexName`. -/
def errUnknownIndexName : String := "Unknown index name"

/-- Modelled from the spec: the constant `index.DefaultKeyContent` is declared
outside the sources at hand; the spec calls it the reserved content key and
its sanitization example shows the key `content`. -/
def DefaultKeyContent : String := "content"

/-- Modelled from the spec: `index.DeepCopyMetadata` is defined outside the
sources at hand; the spec says the sanitizer deep-copies the raw property
mapping into a new mapping that never aliases the original. The values of this
embedding are immutable, so the copy has the bindings of the original. -/
def DeepCopyMetadata (metadata : Meta) : Meta := metadata

/-- The error kinds of `strconv.NumError`. -/
inductive NumError where
  | ErrSyntax
  | ErrRange
  deriving DecidableEq, Repr

/-- The result of `strconv.ParseFloat(s, 64)`: the value and the error, if any. -/
abbrev ParseResult := F64 × Option NumError

/-- The two-step read `v, ok := m[k]` followed by `s, ok := v.(string)`: the
string held under the key, when the key is present and its value is a Go
`string`. -/
def Meta.getString (m : Meta) (k : String) : Option (List Nat) :=
  match Meta.get m k with
  | some (Value.str s) => some s
  | _ => none

/-- One iteration of the loop of `buildSearchResultsFromQdrantMatches`: the
search result of one returned document. `parseFloat` is
`strconv.ParseFloat(s, 64)`. The result is `none` when `bytestofloat64` panics;
`[]byte(vectorAsString)` may have any spare capacity, which does not change
what `bytestofloat64` does (`bytestofloat64Cap_spare`). -/
def buildSearchResult (parseFloat : List Nat → ParseResult) (doc : Document)
    (includeContent : Bool) : Option SearchResult :=
  let metadata := DeepCopyMetadata doc.Properties
  let metadata := if !includeContent then Meta.delete metadata DefaultKeyContent else metadata
  let (score, metadata) :=
    match Meta.getString doc.Properties defaultVectorScoreFieldName with
    | some scoreAsString =>
      ((parseFloat scoreAsString).1, Meta.delete metadata defaultVectorScoreFieldName)
    | none => (0, metadata)
  match Meta.getString doc.Properties defaultVectorFieldName with
  | some vectorAsString =>
    match bytestofloat64 vectorAsString with
    | some values =>
      some { Data := { ID := doc.Id,
                       Metadata := Meta.delete metadata defaultVectorFieldName,
                       Values := values },
             Score := score }
    | none => none
  | none =>
    some { Data := { ID := doc.Id, Metadata := metadata, Values := [] }, Score := score }

/-- `buildSearchResultsFromQdrantMatches`: one search result per returned
document, at the same position. -/
def buildSearchResultsFromQdrantMatches (parseFloat : List Nat → ParseResult) :
    List Document → Bool → Option SearchResults
  | [], _ => some []
  | doc :: rest, includeContent =>
    match buildSearchResult parseFloat doc includeContent with
    | some r =>
      match buildSearchResultsFromQdrantMatches parseFloat rest includeContent with
      | some rs => some (r :: rs)
      | none => none
    | none => none

/-! ## `strconv.ParseFloat` on decimal literals -/

/-- Whether the byte is an ASCII decimal digit. -/
def isDigit (c : Nat) : Bool := decide (48 ≤ c ∧ c ≤ 57)

/-- ASCII lower case of a letter, other bytes unchanged. -/
def lower (c : Nat) : Nat := if 65 ≤ c ∧ c ≤ 90 then c + 32 else c

/-- Reads a run of decimal digits: the accumulated value, the number of
digits read and the rest of the input. -/
def readDigits : List Nat → Nat → Nat → Nat × Nat × List Nat
  | [], acc, n => (acc, n, [])
  | c :: cs, acc, n =>
    if isDigit c then readDigits cs (acc * 10 + (c - 48)) (n + 1) else (acc, n, c :: cs)

/-- Number of binary digits of `n`, with `fuel` at least that number. -/
def bitLengthAux : Nat → Nat → Nat
  | 0, _ => 0
  | fuel + 1, n => if n = 0 then 0 else bitLengthAux fuel (n / 2) + 1

/-- Number of binary digits of `n`. -/
def bitLength (n : Nat) : Nat := bitLengthAux n n

/-- The quotient `n / d` rounded to the nearest integer, ties to even. -/
def roundDiv (n d : Nat) : Nat :=
  let q := n / d
  let r := n % d
  if d < 2 * r ∨ (2 * r = d ∧ q % 2 = 1) then q + 1 else q

/-- The bits of the `float64` nearest to the positive rational `num / den`
(round to nearest, ties to even), without the sign bit. The exponent field is
not saturated: a result at or above `0x7FF0000000000000` means overflow. -/
def ratioToBits (num den : Nat) : Nat :=
  let a := bitLength num
  let b := bitLength den
  let ge : Bool :=
    if b ≤ a then decide (den * 2 ^ (a - b) ≤ num) else decide (den ≤ num * 2 ^ (b - a))
  let e2 : Int := (a : Int) - (b : Int) - (if ge then 0 else 1)
  let e : Int := max e2 (-1022)
  let t : Int := e - 52
  let q := if 0 ≤ t then roundDiv num (den * 2 ^ t.toNat) else roundDiv (num * 2 ^ (-t).toNat) den
  (e + 1022).toNat * 2 ^ 52 + q

/-- The value of a decimal literal with sign `neg`, digits `mant` and decimal
exponent `exp10`: correctly rounded; out of range gives an infinity and
`ErrRange`; underflow gives zero without an error. -/
def decimalToFloat64 (neg : Bool) (mant : Nat) (exp10 : Int) : ParseResult :=
  let sign := if neg then 2 ^ 63 else 0
  if mant = 0 then (sign, none)
  else
    let bits := if 0 ≤ exp10 then ratioToBits (mant * 10 ^ exp10.toNat) 1
                else ratioToBits mant (10 ^ (-exp10).toNat)
    if 0x7FF0000000000000 ≤ bits then (sign + 0x7FF0000000000000, some NumError.ErrRange)
    else (sign + bits, none)

/-- A model of the library function `strconv.ParseFloat(s, 64)` on the
decimal fragment of its input language: an optional sign, then `inf`,
`infinity` or (unsigned) `nan` in any case, or decimal digits with an optional
point and an optional decimal exponent. In this fragment it follows the
library's documentation: a well-formed number gives the nearest `float64`; a
well-formed number too large gives `±Inf` with `ErrRange`; an ill-formed
string gives `0` with `ErrSyntax`. Hexadecimal mantissas and digit-separating
underscores, which the library also accepts, are outside the fragment and are
reported as `ErrSyntax` here. -/
def ParseFloat (s : List Nat) : ParseResult :=
  let (signed, neg, s1) :=
    match s with
    | 43 :: r => (true, false, r)
    | 45 :: r => (true, true, r)
    | _ => (false, false, s)
  let sign := if neg then 2 ^ 63 else 0
  if s1.map lower = ascii "inf" ∨ s1.map lower = ascii "infinity" then
    (sign + 0x7FF0000000000000, none)
  else if !signed ∧ s1.map lower = ascii "nan" then (0x7FF8000000000001, none)
  else
    let (acc1, n1, s2) := readDigits s1 0 0
    let (acc2, n2, s3) :=
      match s2 with
      | 46 :: r => readDigits r acc1 0
      | _ => (acc1, 0, s2)
    if n1 + n2 = 0 then (0, some NumError.ErrSyntax)
    else
      match s3 with
      | [] => decimalToFloat64 neg acc2 (-(n2 : Int))
      | c :: r =>
        if lower c = 101 then
          let (eneg, r1) :=
            match r with
            | 43 :: r' => (false, r')
            | 45 :: r' => (true, r')
            | _ => (false, r)
          let (ev, en, r2) := readDigits r1 0 0
          if en = 0 ∨ r2 ≠ [] then (0, some NumError.ErrSyntax)
          else decimalToFloat64 neg acc2 ((if eneg then -(ev : Int) else (ev : Int)) - (n2 : Int))
        else (0, some NumError.ErrSyntax)

/-! ## The backend client and the database handle -/

/-- A Go `error`: an error of the backend or of a library with its message, or
an error wrapped by `fmt.Errorf("%w: %w", index.ErrInternal, err)`. -/
inductive Err where
  | msg (s : String)
  | internal (err : Err)
  deriving DecidableEq, Repr

/-- Modelled from the spec: the error value `index.ErrInternal` is declared
outside the sources at hand; the spec describes it as the generic "internal"
marker with which backend errors are wrapped. -/
def ErrInternalMessage : String := "internal"

/-- The method `err.Error()`: the message of a plain error; for a wrapped
error the two messages joined by `": "`, as `fmt.Errorf("%w: %w", ...)` does. -/
def Err.Error : Err → String
  | Err.msg s => s
  | Err.internal err => ErrInternalMessage ++ ": " ++ Err.Error err

/-- The type `Distance`. -/
inductive Distance where
  | DistanceCosine
  | DistanceEuclidean
  | DistanceDot
  deriving DecidableEq, Repr

/-- The backend constant of a `Distance`. -/
def Distance.toString : Distance → String
  | Distance.DistanceCosine => "COSINE"
  | Distance.DistanceEuclidean => "IP"
  | Distance.DistanceDot => "L2"

/-- `CreateIndexOptions`. -/
structure CreateIndexOptions where
  Dimension : Nat
  Distance : Distance
  deriving DecidableEq, Repr

/-- The schema handed to `CreateIndex`: one vector field with the flat
algorithm and the attributes `TYPE`, `DIM` and `DISTANCE_METRIC`. -/
structure Schema where
  fieldName : String
  algorithm : String
  type : String
  dim : Nat
  distanceMetric : String
  deriving DecidableEq, Repr

/-- The part of `redisearch.IndexInfo` that is read: `Name` and `DocCount`. -/
structure IndexInfo where
  Name : String
  DocCount : Nat
  deriving DecidableEq, Repr

/-- `redisearch.Filter`, kept abstract as its textual form. -/
structure Filter where
  repr : String
  deriving DecidableEq, Repr

/-- The field `Filter` of `option.Options`, of type `interface{}`: `nil`, a
`redisearch.Filter`, or a value of another type. -/
inductive FilterArg where
  | nil
  | redis (f : Filter)
  | other
  deriving DecidableEq, Repr

/-- `option.Options`: the per-call search options. -/
structure Options where
  TopK : Int
  Filter : FilterArg
  deriving DecidableEq, Repr

/-- The query built by `similaritySearch`. -/
structure Query where
  raw : String
  sortBy : String
  ascending : Bool
  withPayloads : Bool
  dialect : Nat
  limitOffset : Int
  limitNum : Int
  queryVector : List Nat
  filter : Filter
  deriving DecidableEq, Repr

/-- A call issued to the backend. -/
inductive Call where
  | info
  | list
  | createIndex (schema : Schema)
  | index (documents : List Document)
  | search (query : Query)
  deriving DecidableEq, Repr

/-- The methods of `redisearch.Client` that are called, over a backend state
`σ`: every method returns its result and the next state of the backend. -/
structure Client (σ : Type) where
  info : σ → Except Err IndexInfo × σ
  list : σ → Except Err (List String) × σ
  createIndex : Schema → σ → Option Err × σ
  index : List Document → σ → Option Err × σ
  search : Query → σ → Except Err (List Document) × σ

/-- The struct `DB`. -/
structure DB (σ : Type) where
  redisearchClient : Client σ
  includeContent : Bool
  includeValues : Bool
  createIndex : Option CreateIndexOptions

/-- The struct `Options` of the constructor (named `redis.Options` in Go). -/
structure NewOptions (σ : Type) where
  RedisearchClient : Client σ
  IncludeContent : Bool
  IncludeValues : Bool
  CreateIndex : Option CreateIndexOptions

/-- The constructor `New`. -/
def New {σ : Type} (options : NewOptions σ) : DB σ :=
  { redisearchClient := options.RedisearchClient
    includeContent := options.IncludeContent
    includeValues := options.IncludeValues
    createIndex := options.CreateIndex }

/-- The outcome of a method of `DB`: its result, the state in which it leaves
the backend, and the backend calls it issued, in order. -/
structure Outcome (σ α : Type) where
  result : α
  state : σ
  calls : List Call

/-- The schema built in `createIndexIfRequired`. -/
def vectorSchema (opts : CreateIndexOptions) : Schema :=
  { fieldName := defaultVectorFieldName
    algorithm := "FLAT"
    type := "FLOAT32"
    dim := opts.Dimension
    distanceMetric := opts.Distance.toString }

/-- `DB.createIndexIfRequired`. The result is the returned error, if any.
Inside the loop over `indexes` the pointer `indexInfo` is not nil and
`indexInfo.Name` is `indexName`, because `indexName` is non-empty only when
`Info` succeeded. -/
def DB.createIndexIfRequired {σ : Type} (d : DB σ) (st : σ) : Outcome σ (Option Err) :=
  match d.createIndex with
  | none => { result := none, state := st, calls := [] }
  | some createIndex =>
    let (infoResult, st1) := d.redisearchClient.info st
    let unexpected : Option Err :=
      match infoResult with
      | Except.error err => if err.Error ≠ errUnknownIndexName then some err else none
      | Except.ok _ => none
    match unexpected with
    | some err => { result := some err, state := st1, calls := [Call.info] }
    | none =>
      let indexName : String :=
        match infoResult with
        | Except.ok indexInfo => indexInfo.Name
        | Except.error _ => ""
      let (listResult, st2) := d.redisearchClient.list st1
      match listResult with
      | Except.error err => { result := some err, state := st2, calls := [Call.info, Call.list] }
      | Except.ok indexes =>
        if 0 < indexes.length ∧ indexName ≠ "" ∧ indexes.any (fun index => index == indexName) then
          { result := none, state := st2, calls := [Call.info, Call.list] }
        else
          let schema := vectorSchema createIndex
          let (err, st3) := d.redisearchClient.createIndex schema st2
          { result := err, state := st3, calls := [Call.info, Call.list, Call.createIndex schema] }

/-- The number of `CreateIndex` calls among backend calls. -/
def countCreateIndex (calls : List Call) : Nat :=
  (calls.filter (fun c => match c with
    | Call.createIndex _ => true
    | _ => false)).length

/-! ## Identifiers -/

/-- The two lower-case hexadecimal digits of a byte. -/
def hexByte (b : Nat) : String :=
  String.mk [(Nat.digitChar (b % 256 / 16)), (Nat.digitChar (b % 16))]

/-- `hex.Encode` of a sequence of bytes. -/
def hexEncode (bs : List Nat) : String :=
  String.join (bs.map hexByte)

/-- A `uuid.UUID`: sixteen bytes. -/
structure UUID where
  bytes : List Nat
  deriving DecidableEq, Repr

/-- `UUID.String`: the form `xxxxxxxx-xxxx-xxxx-xxxx-xxxxxxxxxxxx`. -/
def UUID.String (u : UUID) : String :=
  hexEncode (u.bytes.take 4) ++ "-" ++ hexEncode ((u.bytes.drop 4).take 2) ++ "-"
    ++ hexEncode ((u.bytes.drop 6).take 2) ++ "-" ++ hexEncode ((u.bytes.drop 8).take 2) ++ "-"
    ++ hexEncode ((u.bytes.drop 10).take 6)

/-- The library function `uuid.NewUUID` over its hidden state `γ` (clock and
node): a new identifier or an error, and the next state. -/
abbrev UUIDSource (γ : Type) := γ → Except Err UUID × γ

/-! ## Insert and Search -/

/-- The second half of the body of the loop of `Insert`: the document of a
record whose identifier is `dataID`, with the metadata of the record and its
encoded vector under the key `vec`. The result is `none` when
`float64tobytes` panics. -/
def buildDocument (dataID : String) (data : Data) : Option Document :=
  let document := NewDocument dataID 0x3F800000
  let document := data.Metadata.foldl (fun doc kv => doc.Set kv.1 kv.2) document
  match float64tobytes data.Values with
  | some bytes => some (document.Set defaultVectorFieldName (Value.bytes bytes))
  | none => none

/-- The body of the loop of `Insert` for one record: a record with an empty
ID gets the string of a new UUID as its ID, then the document is built. The
result is `none` on a panic, `some (error e)` when `uuid.NewUUID` fails. -/
def insertDocument {γ : Type} (newUUID : UUIDSource γ) (data : Data) (g : γ) :
    Option (Except Err Document × γ) :=
  if data.ID = "" then
    match newUUID g with
    | (Except.error errUUID, g1) => some (Except.error errUUID, g1)
    | (Except.ok id, g1) =>
      match buildDocument id.String data with
      | some document => some (Except.ok document, g1)
      | none => none
  else
    match buildDocument data.ID data with
    | some document => some (Except.ok document, g)
    | none => none

/-- The loop of `Insert`: the documents of all records, in order, appended to
`documents`; it stops at the first failure of `uuid.NewUUID`. -/
def insertDocuments {γ : Type} (newUUID : UUIDSource γ) :
    List Data → γ → List Document → Option (Except Err (List Document) × γ)
  | [], g, documents => some (Except.ok documents, g)
  | data :: datas, g, documents =>
    match insertDocument newUUID data g with
    | none => none
    | some (Except.error errUUID, g1) => some (Except.error errUUID, g1)
    | some (Except.ok document, g1) => insertDocuments newUUID datas g1 (documents ++ [document])

/-- `DB.Insert`. The result is `none` on a panic; otherwise the returned
error, if any, the state of the identifier source and the outcome on the
backend. -/
def DB.Insert {σ γ : Type} (d : DB σ) (newUUID : UUIDSource γ) (datas : List Data)
    (st : σ) (g : γ) : Option (Outcome σ (Option Err) × γ) :=
  let lifecycle := d.createIndexIfRequired st
  match lifecycle.result with
  | some err =>
    some ({ result := some (Err.internal err), state := lifecycle.state,
            calls := lifecycle.calls }, g)
  | none =>
    match insertDocuments newUUID datas g [] with
    | none => none
    | some (Except.error errUUID, g1) =>
      some ({ result := some errUUID, state := lifecycle.state, calls := lifecycle.calls }, g1)
    | some (Except.ok documents, g1) =>
      let (err, st1) := d.redisearchClient.index documents lifecycle.state
      let calls := lifecycle.calls ++ [Call.index documents]
      match err with
      | some err => some ({ result := some (Err.internal err), state := st1, calls := calls }, g1)
      | none => some ({ result := none, state := st1, calls := calls }, g1)

/-- The query built by `similaritySearch`: the KNN query text with `TopK`,
sorted ascending by the score field, with payloads, dialect 2, limited to
`TopK` results from offset 0, with the encoded vector as the parameter
`query_vector` and with the filter. -/
def knnQuery (topK : Int) (queryVector : List Nat) (filter : Filter) : Query :=
  { raw := "(*)=>[KNN " ++ toString topK ++ " @vec $query_vector]"
    sortBy := defaultVectorScoreFieldName
    ascending := true
    withPayloads := true
    dialect := 2
    limitOffset := 0
    limitNum := topK
    queryVector := queryVector
    filter := filter }

/-- The filter used by `similaritySearch`: `redisearch.Filter{}` when
`opts.Filter` is `nil`; the type assertion `opts.Filter.(redisearch.Filter)`
panics on a value of another type. -/
def assertFilter : FilterArg → Option Filter
  | FilterArg.nil => some { repr := "" }
  | FilterArg.redis f => some f
  | FilterArg.other => none

/-- `DB.similaritySearch`. The result is `none` when the type assertion
`opts.Filter.(redisearch.Filter)` or `float64tobytes` panics. -/
def DB.similaritySearch {σ : Type} (d : DB σ) (values : List F64) (opts : Options) (st : σ) :
    Option (Outcome σ (Except Err (List Document))) :=
  match float64tobytes values, assertFilter opts.Filter with
  | some queryVector, some filter =>
    let query := knnQuery opts.TopK queryVector filter
    let (docs, st1) := d.redisearchClient.search query st
    some { result := docs, state := st1, calls := [Call.search query] }
  | _, _ => none

/-- `DB.Search`. The result is `none` on a panic. -/
def DB.Search {σ : Type} (d : DB σ) (parseFloat : List Nat → ParseResult)
    (values : List F64) (options : Options) (st : σ) :
    Option (Outcome σ (Except Err SearchResults)) :=
  match d.similaritySearch values options st with
  | none => none
  | some out =>
    match out.result with
    | Except.error err =>
      some { result := Except.error (Err.internal err), state := out.state, calls := out.calls }
    | Except.ok docs =>
      match buildSearchResultsFromQdrantMatches parseFloat docs d.includeContent with
      | some results =>
        some { result := Except.ok results, state := out.state, calls := out.calls }
      | none => none

/-- A returned document whose `vec` property, when it is a string, has a
length that is a multiple of four. -/
def WellFormedVector (doc : Document) : Prop :=
  match Meta.getString doc.Properties defaultVectorFieldName with
  | some s => s.length % 4 = 0
  | none => True

instance (doc : Document) : Decidable (WellFormedVector doc) := by
  unfold WellFormedVector
  split <;> infer_instance

/-! ## Concrete documents and backends -/

/-- The document of the spec's sanitization example, with the vector `[1.0]`. -/
def exampleDoc : Document :=
  { Id := "doc1", Score := 0x3F800000, Payload := [],
    Properties := [("vec", Value.str [0, 0, 128, 63]), ("__vec_score", Value.str (ascii "0.42")),
      ("content", Value.str (ascii "hello")), ("tag", Value.str (ascii "x"))] }

/-- A document whose score property is a number, not a string. -/
def numericScoreDoc : Document :=
  { Id := "doc2", Score := 0x3F800000, Payload := [],
    Properties := [("__vec_score", Value.float 0x3FDAE147AE147AE1),
      ("tag", Value.str (ascii "x"))] }

/-- A document whose score string is a well-formed number out of the range of
`float64`. -/
def hugeScoreDoc : Document :=
  { Id := "doc3", Score := 0x3F800000, Payload := [],
    Properties := [("__vec_score", Value.str (ascii "1e400"))] }

/-- A document whose stored vector string has five bytes. -/
def malformedVectorDoc : Document :=
  { Id := "doc4", Score := 0x3F800000, Payload := [],
    Properties := [("vec", Value.str [0, 0, 128, 63, 0]), ("__vec_score", Value.str (ascii "0.42"))] }

/-- A backend without state whose `Search` returns the given documents and
whose other methods succeed. -/
def fixedBackend (docs : List Document) : Client Unit :=
  { info := fun st => (Except.ok { Name := "idx", DocCount := docs.length }, st)
    list := fun st => (Except.ok ["idx"], st)
    createIndex := fun _ st => (none, st)
    index := fun _ st => (none, st)
    search := fun _ st => (Except.ok docs, st) }

/-- A backend for the index called `name`; its state is the list of the
existing indexes. `Info` fails with "Unknown index name" when the index does
not exist; `CreateIndex` fails when it exists already. -/
def namedBackend (name : String) : Client (List String) :=
  { info := fun st =>
      if name ∈ st then (Except.ok { Name := name, DocCount := 0 }, st)
      else (Except.error (Err.msg errUnknownIndexName), st)
    list := fun st => (Except.ok st, st)
    createIndex := fun _ st =>
      if name ∈ st then (some (Err.msg "Index already exists"), st) else (none, name :: st)
    index := fun _ st => (none, st)
    search := fun _ st => (Except.ok [], st) }

/-- The backend of the creation race: like `namedBackend`, but a concurrent
caller creates the index right after an `Info` call has found it absent. -/
def racingBackend (name : String) : Client (List String) :=
  { namedBackend name with
    info := fun st =>
      if name ∈ st then (Except.ok { Name := name, DocCount := 0 }, st)
      else (Except.error (Err.msg errUnknownIndexName), name :: st) }

/-- The batches of documents submitted with `Index` among backend calls. -/
def indexCalls (calls : List Call) : List (List Document) :=
  calls.filterMap (fun c => match c with
    | Call.index documents => some documents
    | _ => none)

/-- Identifier generation succeeds: every call of `uuid.NewUUID` that the loop
of `Insert` makes on these records, starting from the state `g` of the
identifier source, returns an identifier. -/
def UUIDsSucceed {γ : Type} (newUUID : UUIDSource γ) : List Data → γ → Prop
  | [], _ => True
  | data :: datas, g =>
    if data.ID = "" then
      match newUUID g with
      | (Except.ok _, g1) => UUIDsSucceed newUUID datas g1
      | (Except.error _, _) => False
    else UUIDsSucceed newUUID datas g

/-- An identifier source that never fails: its state is a counter, and the
identifier it gives has all its sixteen bytes equal to the counter. -/
def counterUUID : UUIDSource Nat :=
  fun n => (Except.ok { bytes := List.replicate 16 n }, n + 1)

/-- A backend whose state is the list of the stored documents: `Index`
appends its batch to the state; the other methods succeed and leave the state
as it is. -/
def storingBackend : Client (List Document) :=
  { info := fun st => (Except.ok { Name := "idx", DocCount := st.length }, st)
    list := fun st => (Except.ok ["idx"], st)
    createIndex := fun _ st => (none, st)
    index := fun documents st => (none, st ++ documents)
    search := fun _ st => (Except.ok st, st) }

/-- Three records: one with the ID `a`, two without an ID. -/
def exampleRecords : List Data :=
  [{ ID := "a", Values := [0x3FF0000000000000], Metadata := [("tag", Value.str (ascii "x"))] },
   { ID := "", Values := [0x3FF0000000000000], Metadata := [] },
   { ID := "", Values := [], Metadata := [] }]

/-! ## Facts about the vector codec -/

theorem putUint32At_append (pre rest : List Nat) (z0 z1 z2 z3 v : Nat) :
    putUint32At (pre ++ z0 :: z1 :: z2 :: z3 :: rest) pre.length v
      = some ((pre ++ le32 v) ++ rest) := by
  simp [putUint32At, PutUint32, le32]

theorem float64tobytesLoop_spec (floats : List F32) :
    ∀ (i : Nat) (pre : List Nat), pre.length = i * 4 →
      float64tobytesLoop floats i (pre ++ List.replicate (floats.length * 4) 0)
        = some (pre ++ floats.flatMap (fun f => le32 (Float32bits f))) := by
  induction floats with
  | nil => intro i pre _; simp [float64tobytesLoop]
  | cons f fs ih =>
    intro i pre hpre
    have hrep : List.replicate ((f :: fs).length * 4) 0
        = 0 :: 0 :: 0 :: 0 :: List.replicate (fs.length * 4) 0 := by
      simp [List.length_cons, Nat.succ_mul, List.replicate_succ]
    rw [hrep, float64tobytesLoop, ← hpre, putUint32At_append]
    have hlen : (pre ++ le32 (Float32bits f)).length = (i + 1) * 4 := by
      simp [le32, hpre]; ring
    have := ih (i + 1) (pre ++ le32 (Float32bits f)) hlen
    simp only [List.flatMap_cons, ← List.append_assoc]
    simpa [hpre] using this

/-- The encoder never panics and its output is the concatenation of the
little-endian words of the narrowed elements. -/
theorem float64tobytes_eq (v : List F64) :
    float64tobytes v = some ((float64to32 v).flatMap (fun f => le32 (Float32bits f))) := by
  have := float64tobytesLoop_spec (float64to32 v) 0 [] (by simp)
  simpa [float64tobytes] using this

theorem length_flatMap_le32 (fs : List F32) :
    (fs.flatMap (fun f => le32 (Float32bits f))).length = 4 * fs.length := by
  induction fs with
  | nil => simp
  | cons f fs ih =>
    rw [List.flatMap_cons, List.length_append, ih]
    simp only [le32, List.length_cons, List.length_nil]
    omega

theorem drop_flatMap_le32 (fs : List F32) :
    ∀ j, (fs.flatMap (fun f => le32 (Float32bits f))).drop (4 * j)
      = (fs.drop j).flatMap (fun f => le32 (Float32bits f)) := by
  induction fs with
  | nil => intro j; simp
  | cons f fs ih =>
    intro j
    cases j with
    | zero => simp
    | succ j =>
      have h : 4 * (j + 1) = (le32 (Float32bits f)).length + 4 * j := by simp [le32]; omega
      rw [List.flatMap_cons, h, List.drop_append, List.drop_succ_cons, ih]

theorem float32_lt (x : Nat) : float32 x < 2 ^ 32 := by
  have hs : x / 2 ^ 63 % 2 < 2 := Nat.mod_lt _ (by decide)
  have hm : x % 2 ^ 52 / 2 ^ 29 % 2 ^ 22 < 2 ^ 22 := Nat.mod_lt _ (by decide)
  generalize hsd : x / 2 ^ 63 % 2 = s at hs
  generalize hmd : x % 2 ^ 52 / 2 ^ 29 % 2 ^ 22 = p at hm
  simp only [float32, hsd, hmd]
  split_ifs <;> omega

theorem Uint32_le32_append (v : Nat) (rest : List Nat) :
    Uint32 ((le32 v ++ rest).take 4) = some (v % 2 ^ 32) := by
  simp only [le32, Uint32, List.cons_append, List.take_succ_cons, List.take_zero,
    List.nil_append, Option.some.injEq]
  omega

theorem Uint32_of_length (l : List Nat) (h : 4 ≤ l.length) : ∃ bits, Uint32 l = some bits := by
  match l, h with
  | b0 :: b1 :: b2 :: b3 :: _, _ => exact ⟨_, rfl⟩

theorem take_drop_append_left (bs spare : List Nat) (i : Nat) (h : i + 4 ≤ bs.length) :
    ((bs ++ spare).drop i).take 4 = (bs.drop i).take 4 := by
  rw [List.drop_append_of_le_length (by omega), List.take_append_of_le_length]
  simp; omega

/-- On a slice whose length is a multiple of four the reading loop terminates
normally: it keeps the entries below `i / 4` and stores word `j` at index `j`. -/
theorem bytestofloat64Loop_ok (bs spare : List Nat) (h4 : bs.length % 4 = 0) :
    ∀ (n i : Nat) (floats : List F32), bs.length - i = n → i % 4 = 0 → i ≤ bs.length →
      floats.length = bs.length / 4 →
      ∃ out, bytestofloat64Loop bs spare i floats = some out ∧ out.length = bs.length / 4 ∧
        (∀ j, j < i / 4 → out[j]? = floats[j]?) ∧
        (∀ j, i / 4 ≤ j → j < bs.length / 4 →
          ∃ bits, Uint32 ((bs.drop (4 * j)).take 4) = some bits ∧
            out[j]? = some (Float32frombits bits)) := by
  intro n
  induction n using Nat.strong_induction_on with
  | _ n ih =>
    intro i floats hn hi hle hfl
    rw [bytestofloat64Loop]
    by_cases hlt : i < bs.length
    · have hi4 : i + 4 ≤ bs.length := by omega
      have hcap : i + 4 ≤ bs.length + spare.length := by omega
      have hidx : i / 4 < floats.length := by omega
      obtain ⟨bits, hbits⟩ := Uint32_of_length ((bs.drop i).take 4)
        (by simp; omega)
      rw [if_pos hlt, if_pos hcap, take_drop_append_left bs spare i hi4, hbits]
      simp only [if_pos hidx]
      obtain ⟨out, hout, hlen, hlow, hhigh⟩ :=
        ih (bs.length - (i + 4)) (by omega) (i + 4)
          (floats.set (i / 4) (Float32frombits bits)) rfl (by omega) hi4 (by simpa using hfl)
      refine ⟨out, hout, hlen, ?_, ?_⟩
      · intro j hj
        rw [hlow j (by omega), List.getElem?_set]
        have : ¬ i / 4 = j := by omega
        simp [this]
      · intro j hj hjl
        by_cases hji : j = i / 4
        · refine ⟨bits, ?_, ?_⟩
          · have : 4 * j = i := by omega
            rw [this]; exact hbits
          · rw [hlow j (by omega), List.getElem?_set]
            simp [hji, hidx]
        · exact hhigh j (by omega) hjl
    · have hie : i = bs.length := by omega
      rw [if_neg hlt]
      refine ⟨floats, rfl, hfl, fun j _ => rfl, ?_⟩
      intro j hj hjl
      omega

/-- On a slice whose length is not a multiple of four the reading loop ends in
a run-time panic, whatever the capacity of the slice. -/
theorem bytestofloat64Loop_panics (bs spare : List Nat) (h4 : bs.length % 4 ≠ 0) :
    ∀ (n i : Nat) (floats : List F32), bs.length - i = n → i % 4 = 0 → i ≤ bs.length →
      floats.length = bs.length / 4 → bytestofloat64Loop bs spare i floats = none := by
  intro n
  induction n using Nat.strong_induction_on with
  | _ n ih =>
    intro i floats hn hi hle hfl
    have hlt : i < bs.length := by omega
    rw [bytestofloat64Loop, if_pos hlt]
    by_cases hcap : i + 4 ≤ bs.length + spare.length
    · rw [if_pos hcap]
      cases hu : Uint32 (((bs ++ spare).drop i).take 4) with
      | none => rfl
      | some bits =>
        simp only []
        by_cases hidx : i / 4 < floats.length
        · rw [if_pos hidx]
          exact ih (bs.length - (i + 4)) (by omega) (i + 4) _ rfl (by omega) (by omega)
            (by simpa using hfl)
        · rw [if_neg hidx]
    · rw [if_neg hcap]

theorem wordAt_flatMap_le32 (fs : List F32) (j : Nat) (f : Nat) (hj : fs[j]? = some f) :
    ((fs.flatMap (fun f => le32 (Float32bits f))).drop (4 * j)).take 4
      = le32 (Float32bits f) := by
  obtain ⟨hlt, hf⟩ := List.getElem?_eq_some_iff.mp hj
  rw [drop_flatMap_le32, List.drop_eq_getElem_cons hlt, List.flatMap_cons, hf]
  simp [le32]

/-- Reading back the words written by the encoder gives the encoded values. -/
theorem bytestofloat64Loop_flatMap (fs : List F32) (spare : List Nat)
    (hfs : ∀ f ∈ fs, f < 2 ^ 32) :
    bytestofloat64Loop (fs.flatMap (fun f => le32 (Float32bits f))) spare 0
      (List.replicate ((fs.flatMap (fun f => le32 (Float32bits f))).length / 4) 0) = some fs := by
  have hlen := length_flatMap_le32 fs
  obtain ⟨out, hout, holen, -, hhigh⟩ :=
    bytestofloat64Loop_ok (fs.flatMap (fun f => le32 (Float32bits f))) spare (by omega) _ 0
      (List.replicate ((fs.flatMap (fun f => le32 (Float32bits f))).length / 4) 0) rfl rfl
      (Nat.zero_le _) (by simp)
  rw [hout]
  congr 1
  have hol : out.length = fs.length := by omega
  apply List.ext_getElem? 
  intro j
  by_cases hj : j < fs.length
  · obtain ⟨bits, hbits, hget⟩ := hhigh j (by omega) (by omega)
    have hfj : fs[j]? = some fs[j] := List.getElem?_eq_getElem hj
    rw [wordAt_flatMap_le32 fs j _ hfj] at hbits
    have hw := Uint32_le32_append (Float32bits fs[j]) []
    rw [List.append_nil, List.take_of_length_le (by simp [le32])] at hw
    rw [hw] at hbits
    have hb : fs[j] < 2 ^ 32 := hfs _ (List.getElem_mem hj)
    have : Float32frombits bits = fs[j] := by
      have := Option.some.inj hbits
      subst this
      simp only [Float32frombits, Float32bits, Nat.mod_mod, Nat.mod_eq_of_lt hb]
    rw [hget, hfj, this]
  · rw [List.getElem?_eq_none (by omega), List.getElem?_eq_none (by omega)]

/-- Decoding a slice whose length is a multiple of four succeeds and gives
`length / 4` values, whatever the capacity of the slice. -/
theorem bytestofloat64Cap_ok (bs spare : List Nat) (h4 : bs.length % 4 = 0) :
    ∃ out, bytestofloat64Cap bs spare = some out ∧ out.length = bs.length / 4 := by
  obtain ⟨out, hout, holen, -, -⟩ :=
    bytestofloat64Loop_ok bs spare h4 _ 0 (List.replicate (bs.length / 4) 0) rfl rfl
      (Nat.zero_le _) (by simp)
  exact ⟨out.map float64, by simp [bytestofloat64Cap, hout], by simpa using holen⟩

/-- Decoding a slice whose length is not a multiple of four panics, whatever
the capacity of the slice. -/
theorem bytestofloat64Cap_panics (bs spare : List Nat) (h4 : bs.length % 4 ≠ 0) :
    bytestofloat64Cap bs spare = none := by
  have := bytestofloat64Loop_panics bs spare h4 _ 0 (List.replicate (bs.length / 4) 0) rfl rfl
    (Nat.zero_le _) (by simp)
  simp [bytestofloat64Cap, this]

/-! ## Widening followed by narrowing -/

theorem leadingBit_spec : ∀ (k m : Nat), 0 < m → m < 2 ^ (k + 1) →
    leadingBit k m ≤ k ∧ 2 ^ leadingBit k m ≤ m ∧ m < 2 ^ (leadingBit k m + 1) := by
  intro k
  induction k with
  | zero => intro m h0 h1; simp [leadingBit]; omega
  | succ k ih =>
    intro m h0 h1
    by_cases h : 2 ^ (k + 1) ≤ m
    · simp only [leadingBit, if_pos h]
      exact ⟨le_refl _, h, h1⟩
    · simp only [leadingBit, if_neg h]
      obtain ⟨a, b, c⟩ := ih m h0 (by omega)
      exact ⟨by omega, b, c⟩

theorem roundShift_mul (a j : Nat) : roundShift (a * 2 ^ j) j = a := by
  have hpos : 0 < 2 ^ j := Nat.pow_pos (by decide)
  simp only [roundShift, Nat.mul_mod_left, Nat.mul_div_cancel _ hpos]
  rw [if_neg]
  omega

/-- The widening conversion in terms of the sign, exponent and mantissa fields. -/
theorem float64_fields (s e m : Nat) (hs : s < 2) (he : e < 256) (hm : m < 2 ^ 23) :
    float64 (s * 2 ^ 31 + e * 2 ^ 23 + m) =
      if e = 255 then
        if m = 0 then s * 2 ^ 63 + 0x7FF0000000000000
        else s * 2 ^ 63 + 0x7FF8000000000000 + m % 2 ^ 22 * 2 ^ 29
      else if e = 0 then
        if m = 0 then s * 2 ^ 63
        else s * 2 ^ 63 + (leadingBit 22 m + 874) * 2 ^ 52
          + (m - 2 ^ leadingBit 22 m) * 2 ^ (52 - leadingBit 22 m)
      else s * 2 ^ 63 + (e + 896) * 2 ^ 52 + m * 2 ^ 29 := by
  have h1 : (s * 2 ^ 31 + e * 2 ^ 23 + m) / 2 ^ 31 % 2 = s := by omega
  have h2 : (s * 2 ^ 31 + e * 2 ^ 23 + m) / 2 ^ 23 % 256 = e := by omega
  have h3 : (s * 2 ^ 31 + e * 2 ^ 23 + m) % 2 ^ 23 = m := by omega
  simp only [float64, h1, h2, h3]

/-- The narrowing conversion in terms of the sign, exponent and mantissa fields. -/
theorem float32_fields (s e m : Nat) (hs : s < 2) (he : e < 2048) (hm : m < 2 ^ 52) :
    float32 (s * 2 ^ 63 + e * 2 ^ 52 + m) =
      if e = 2047 then
        if m = 0 then s * 2 ^ 31 + 0x7F800000
        else s * 2 ^ 31 + 0x7FC00000 + m / 2 ^ 29 % 2 ^ 22
      else if e = 0 then s * 2 ^ 31
      else
        if 0x7F800000 ≤ (if 897 ≤ e then (e - 897) * 2 ^ 23 + roundShift (2 ^ 52 + m) 29
             else roundShift (2 ^ 52 + m) (926 - e))
        then s * 2 ^ 31 + 0x7F800000
        else s * 2 ^ 31 + (if 897 ≤ e then (e - 897) * 2 ^ 23 + roundShift (2 ^ 52 + m) 29
             else roundShift (2 ^ 52 + m) (926 - e)) := by
  have h1 : (s * 2 ^ 63 + e * 2 ^ 52 + m) / 2 ^ 63 % 2 = s := by omega
  have h2 : (s * 2 ^ 63 + e * 2 ^ 52 + m) / 2 ^ 52 % 2048 = e := by omega
  have h3 : (s * 2 ^ 63 + e * 2 ^ 52 + m) % 2 ^ 52 = m := by omega
  simp only [float32, h1, h2, h3]

/-- Narrowing the widening of a single-precision value gives the value back,
except that a signalling NaN comes back quiet. -/
theorem float32_float64 (b : Nat) (hb : b < 2 ^ 32)
    (hq : b / 2 ^ 23 % 256 = 255 → b % 2 ^ 23 = 0 ∨ 2 ^ 22 ≤ b % 2 ^ 23) :
    float32 (float64 b) = b := by
  have hs2 : b / 2 ^ 31 % 2 < 2 := Nat.mod_lt _ (by decide)
  have he2 : b / 2 ^ 23 % 256 < 256 := Nat.mod_lt _ (by decide)
  have hm2 : b % 2 ^ 23 < 2 ^ 23 := Nat.mod_lt _ (by decide)
  have hbe : b = b / 2 ^ 31 % 2 * 2 ^ 31 + b / 2 ^ 23 % 256 * 2 ^ 23 + b % 2 ^ 23 := by omega
  generalize b / 2 ^ 31 % 2 = s at *
  generalize b / 2 ^ 23 % 256 = e at *
  generalize b % 2 ^ 23 = m at *
  subst hbe
  rw [float64_fields s e m hs2 he2 hm2]
  by_cases he : e = 255
  · rw [if_pos he]
    by_cases hm : m = 0
    · rw [if_pos hm]
      rw [show s * 2 ^ 63 + 0x7FF0000000000000 = s * 2 ^ 63 + 2047 * 2 ^ 52 + 0 by omega,
        float32_fields s 2047 0 hs2 (by omega) (by omega), if_pos rfl, if_pos rfl]
      omega
    · rw [if_neg hm]
      have h22 : 2 ^ 22 ≤ m := by
        rcases hq he with h | h
        · exact absurd h hm
        · exact h
      have := float32_fields s 2047 (2 ^ 51 + m % 2 ^ 22 * 2 ^ 29) hs2 (by omega) (by omega)
      rw [show s * 2 ^ 63 + 0x7FF8000000000000 + m % 2 ^ 22 * 2 ^ 29
        = s * 2 ^ 63 + 2047 * 2 ^ 52 + (2 ^ 51 + m % 2 ^ 22 * 2 ^ 29) by omega, this]
      rw [if_pos rfl, if_neg (by omega)]
      omega
  · rw [if_neg he]
    by_cases he0 : e = 0
    · rw [if_pos he0]
      by_cases hm : m = 0
      · rw [if_pos hm]
        rw [show s * 2 ^ 63 = s * 2 ^ 63 + 0 * 2 ^ 52 + 0 by omega,
          float32_fields s 0 0 hs2 (by omega) (by omega), if_neg (by omega), if_pos rfl]
        omega
      · rw [if_neg hm]
        obtain ⟨hk, hlo, hhi⟩ := leadingBit_spec 22 m (by omega) (by omega)
        generalize leadingBit 22 m = k at *
        have hpow : 2 ^ 52 = 2 ^ k * 2 ^ (52 - k) := by
          rw [← Nat.pow_add]; congr 1; omega
        have hsig : 2 ^ 52 + (m - 2 ^ k) * 2 ^ (52 - k) = m * 2 ^ (52 - k) := by
          rw [hpow, ← Nat.add_mul]; congr 1; omega
        have hM : (m - 2 ^ k) * 2 ^ (52 - k) < 2 ^ 52 := by
          rw [hpow]
          apply Nat.mul_lt_mul_of_lt_of_le _ (le_refl _) (Nat.pow_pos (by decide))
          rw [Nat.pow_succ] at hhi; omega
        rw [float32_fields s (k + 874) _ hs2 (by omega) hM]
        rw [if_neg (by omega), if_neg (by omega), hsig]
        have hsh : 926 - (k + 874) = 52 - k := by omega
        rw [if_neg (by omega : ¬ 897 ≤ k + 874), hsh, roundShift_mul]
        rw [if_neg (by omega)]
        omega
    · rw [if_neg he0]
      rw [float32_fields s (e + 896) (m * 2 ^ 29) hs2 (by omega) (by omega)]
      have hr : roundShift (2 ^ 52 + m * 2 ^ 29) 29 = 2 ^ 23 + m := by
        rw [show 2 ^ 52 + m * 2 ^ 29 = (2 ^ 23 + m) * 2 ^ 29 by ring]
        exact roundShift_mul _ _
      rw [if_neg (by omega), if_neg (by omega), if_pos (by omega : 897 ≤ e + 896), hr]
      rw [if_neg (by omega)]
      omega

/-- Every single-precision value, widened, is representable in single precision. -/
theorem representable32_float64 (b : Nat) (hb : b < 2 ^ 32) : Representable32 (float64 b) := by
  unfold Representable32
  by_cases hq : b / 2 ^ 23 % 256 = 255 → b % 2 ^ 23 = 0 ∨ 2 ^ 22 ≤ b % 2 ^ 23
  · rw [float32_float64 b hb hq]
  · -- a signalling NaN widens to the same double as its quiet form
    have hb' : b + 2 ^ 22 < 2 ^ 32 := by omega
    have hsame : float64 b = float64 (b + 2 ^ 22) := by
      have h1 : (b + 2 ^ 22) / 2 ^ 31 % 2 = b / 2 ^ 31 % 2 := by omega
      have h2 : (b + 2 ^ 22) / 2 ^ 23 % 256 = 255 := by omega
      have h2' : b / 2 ^ 23 % 256 = 255 := by omega
      have h3 : (b + 2 ^ 22) % 2 ^ 23 % 2 ^ 22 = b % 2 ^ 23 % 2 ^ 22 := by omega
      have h4 : ¬ (b + 2 ^ 22) % 2 ^ 23 = 0 := by omega
      have h5 : ¬ b % 2 ^ 23 = 0 := by omega
      simp only [float64, h1, h2, h2', h3, h4, h5, if_true, if_false]
    rw [hsame, float32_float64 (b + 2 ^ 22) hb' (by omega)]

/-- A double is representable in single precision exactly when it is the
widening of some single-precision value. -/
theorem representable32_iff (x : Nat) :
    Representable32 x ↔ ∃ b, b < 2 ^ 32 ∧ float64 b = x := by
  constructor
  · intro h
    exact ⟨float32 x, float32_lt x, h⟩
  · rintro ⟨b, hb, rfl⟩
    exact representable32_float64 b hb

theorem getElem?_flatMap_le32 (fs : List F32) (i f : Nat) (h : fs[i]? = some f) (k : Nat)
    (hk : k < 4) :
    (fs.flatMap (fun f => le32 (Float32bits f)))[4 * i + k]? = (le32 (Float32bits f))[k]? := by
  rw [← wordAt_flatMap_le32 fs i f h, List.getElem?_take_of_lt hk, List.getElem?_drop]

/-! ## The vector codec: wire layout and round trip -/

/-- C2: `float64tobytes` never panics; for a vector of `n` doubles its output
has exactly `4 * n` bytes, and the bytes at positions `4i`, `4i+1`, `4i+2`,
`4i+3` are the single-precision bit pattern of element `i` narrowed with
`float32`, least significant byte first. -/
theorem float64tobytes_layout (v : List F64) :
    ∃ out, float64tobytes v = some out ∧ out.length = 4 * v.length ∧
      ∀ i x, v[i]? = some x →
        out[4 * i]? = some (Float32bits (float32 x) % 256) ∧
        out[4 * i + 1]? = some (Float32bits (float32 x) / 2 ^ 8 % 256) ∧
        out[4 * i + 2]? = some (Float32bits (float32 x) / 2 ^ 16 % 256) ∧
        out[4 * i + 3]? = some (Float32bits (float32 x) / 2 ^ 24 % 256) := by
  refine ⟨_, float64tobytes_eq v, ?_, ?_⟩
  · rw [length_flatMap_le32]; simp [float64to32]
  · intro i x hx
    have hf : (float64to32 v)[i]? = some (float32 x) := by
      simp [float64to32, List.getElem?_map, hx]
    have h0 := getElem?_flatMap_le32 _ i _ hf 0 (by decide)
    have h1 := getElem?_flatMap_le32 _ i _ hf 1 (by decide)
    have h2 := getElem?_flatMap_le32 _ i _ hf 2 (by decide)
    have h3 := getElem?_flatMap_le32 _ i _ hf 3 (by decide)
    exact ⟨h0, h1, h2, h3⟩

/-- Instance of `float64tobytes_layout`: the vector `[1.0, 0.1]`, whose second
element narrows to `0x3DCCCCCD`, stored as the bytes `CD CC CC 3D`. -/
theorem float64tobytes_layout_witness :
    ∃ out, float64tobytes [0x3FF0000000000000, 0x3FB999999999999A] = some out ∧
      out.length = 8 ∧
      out[4]? = some 0xCD ∧ out[5]? = some 0xCC ∧ out[6]? = some 0xCC ∧ out[7]? = some 0x3D := by
  obtain ⟨out, h, hl, hb⟩ := float64tobytes_layout [0x3FF0000000000000, 0x3FB999999999999A]
  exact ⟨out, h, hl, hb 1 0x3FB999999999999A rfl⟩

/-- C1: for a vector of doubles each of which is exactly representable in
single precision, encoding never panics, decoding the encoded bytes never
panics, and the decoded vector has the length of the original and is equal to
it element by element (as bit patterns). The slice handed to the decoder may
have any spare capacity. -/
theorem codec_roundtrip (v : List F64) (spare : List Nat)
    (hv : ∀ x ∈ v, Representable32 x) :
    ∃ (bytes : List Nat) (w : List F64), float64tobytes v = some bytes ∧ bytestofloat64Cap bytes spare = some w ∧
      w.length = v.length ∧ ∀ i : Nat, w[i]? = v[i]? := by
  have hloop := bytestofloat64Loop_flatMap (float64to32 v) spare (by
    intro f hf
    obtain ⟨x, -, rfl⟩ := List.mem_map.mp hf
    exact float32_lt x)
  have hback : (float64to32 v).map float64 = v := by
    rw [float64to32, List.map_map]
    conv_rhs => rw [← List.map_id v]
    exact List.map_congr_left (fun x hx => hv x hx)
  refine ⟨_, v, float64tobytes_eq v, ?_, rfl, fun _ => rfl⟩
  simp only [bytestofloat64Cap, hloop, hback]

/-- Instance of `codec_roundtrip`: the vector `[1.0, 0.5, -2.5]`. -/
theorem codec_roundtrip_witness :
    (∀ x ∈ [0x3FF0000000000000, 0x3FE0000000000000, 0xC004000000000000], Representable32 x) ∧
    ∃ (bytes : List Nat) (w : List F64),
      float64tobytes [0x3FF0000000000000, 0x3FE0000000000000, 0xC004000000000000]
        = some bytes ∧ bytestofloat64Cap bytes [] = some w ∧
      w.length = 3 ∧
      ∀ i : Nat, w[i]? = [0x3FF0000000000000, 0x3FE0000000000000, 0xC004000000000000][i]? :=
  ⟨by decide, codec_roundtrip _ [] (by decide)⟩

/-! ## Facts about property maps and the reconstruction of results -/

theorem Meta.get_delete (m : Meta) (k k' : String) :
    Meta.get (Meta.delete m k) k' = if k' = k then none else Meta.get m k' := by
  induction m with
  | nil => simp [Meta.delete, Meta.get]
  | cons p rest ih =>
    obtain ⟨a, v⟩ := p
    by_cases hk : k' = k
    · subst hk
      simp only [if_true] at ih ⊢
      by_cases hak : a = k'
      · simp [Meta.delete, ih, hak]
      · simp [Meta.delete, Meta.get, ih, hak]
    · simp only [if_neg hk] at ih ⊢
      by_cases hak : a = k
      · subst hak
        have : ¬ a = k' := fun h => hk h.symm
        simp [Meta.delete, Meta.get, ih, this]
      · simp [Meta.delete, Meta.get, ih, hak]

/-- The capacity of the slice handed to `bytestofloat64` does not change its
result. -/
theorem bytestofloat64Cap_spare (bs spare : List Nat) :
    bytestofloat64Cap bs spare = bytestofloat64 bs := by
  unfold bytestofloat64
  by_cases h4 : bs.length % 4 = 0
  · obtain ⟨o1, h1, l1, -, w1⟩ :=
      bytestofloat64Loop_ok bs spare h4 _ 0 (List.replicate (bs.length / 4) 0) rfl rfl
        (Nat.zero_le _) (by simp)
    obtain ⟨o2, h2, l2, -, w2⟩ :=
      bytestofloat64Loop_ok bs [] h4 _ 0 (List.replicate (bs.length / 4) 0) rfl rfl
        (Nat.zero_le _) (by simp)
    have : o1 = o2 := by
      apply List.ext_getElem?
      intro j
      by_cases hj : j < bs.length / 4
      · obtain ⟨b1, hb1, g1⟩ := w1 j (by omega) hj
        obtain ⟨b2, hb2, g2⟩ := w2 j (by omega) hj
        rw [hb1] at hb2
        rw [g1, g2, Option.some.inj hb2]
      · rw [List.getElem?_eq_none (by omega), List.getElem?_eq_none (by omega)]
    simp [bytestofloat64Cap, h1, h2, this]
  · rw [bytestofloat64Cap_panics bs spare h4, bytestofloat64Cap_panics bs [] h4]

/-- The result of a document without a malformed `vec` string exists. -/
theorem buildSearchResult_isSome (parseFloat : List Nat → ParseResult) (doc : Document)
    (includeContent : Bool) (h : WellFormedVector doc) :
    ∃ r, buildSearchResult parseFloat doc includeContent = some r := by
  unfold WellFormedVector at h
  unfold buildSearchResult
  cases hv : Meta.getString doc.Properties defaultVectorFieldName with
  | none => simp
  | some s =>
    rw [hv] at h
    obtain ⟨out, hout, -⟩ := bytestofloat64Cap_ok s [] h
    simp [bytestofloat64, hout]

/-- The result of one document panics when its `vec` property is a string
whose length is not a multiple of four. -/
theorem buildSearchResult_panics (parseFloat : List Nat → ParseResult) (doc : Document)
    (includeContent : Bool) (s : List Nat)
    (hv : Meta.getString doc.Properties defaultVectorFieldName = some s)
    (h4 : s.length % 4 ≠ 0) :
    buildSearchResult parseFloat doc includeContent = none := by
  unfold buildSearchResult
  simp [hv, bytestofloat64, bytestofloat64Cap_panics s [] h4]

/-- What one result holds: the identifier of its document, the value that
`parseFloat` gives for a string score, the properties without the keys that
are removed, and the decoded `vec` string. -/
theorem buildSearchResult_spec (parseFloat : List Nat → ParseResult) (doc : Document)
    (includeContent : Bool) (r : SearchResult)
    (h : buildSearchResult parseFloat doc includeContent = some r) :
    r.Data.ID = doc.Id ∧
    r.Score = (match Meta.getString doc.Properties defaultVectorScoreFieldName with
      | some s => (parseFloat s).1
      | none => 0) ∧
    (∀ k, Meta.get r.Data.Metadata k =
      if (k = DefaultKeyContent ∧ includeContent = false)
          ∨ (k = defaultVectorScoreFieldName
              ∧ (Meta.getString doc.Properties defaultVectorScoreFieldName).isSome)
          ∨ (k = defaultVectorFieldName
              ∧ (Meta.getString doc.Properties defaultVectorFieldName).isSome)
      then none else Meta.get doc.Properties k) ∧
    r.Data.Values = (match Meta.getString doc.Properties defaultVectorFieldName with
      | some s => (bytestofloat64 s).getD []
      | none => []) := by
  unfold buildSearchResult at h
  cases hs : Meta.getString doc.Properties defaultVectorScoreFieldName with
  | none =>
    cases hv : Meta.getString doc.Properties defaultVectorFieldName with
    | none =>
      simp only [hs, hv, Option.some.injEq] at h
      subst h
      refine ⟨rfl, rfl, ?_, rfl⟩
      intro k
      cases includeContent <;> simp [DeepCopyMetadata, Meta.get_delete]
    | some s =>
      cases hb : bytestofloat64 s with
      | none => simp [hs, hv, hb] at h
      | some values =>
        simp only [hs, hv, hb, Option.some.injEq] at h
        subst h
        refine ⟨rfl, rfl, ?_, by simp only [hb]; rfl⟩
        intro k
        cases includeContent <;> simp [DeepCopyMetadata, Meta.get_delete]
        all_goals (split_ifs <;> simp_all)
  | some sc =>
    cases hv : Meta.getString doc.Properties defaultVectorFieldName with
    | none =>
      simp only [hs, hv, Option.some.injEq] at h
      subst h
      refine ⟨rfl, rfl, ?_, rfl⟩
      intro k
      cases includeContent <;> simp [DeepCopyMetadata, Meta.get_delete]
      all_goals (split_ifs <;> simp_all)
    | some s =>
      cases hb : bytestofloat64 s with
      | none => simp [hs, hv, hb] at h
      | some values =>
        simp only [hs, hv, hb, Option.some.injEq] at h
        subst h
        refine ⟨rfl, rfl, ?_, by simp only [hb]; rfl⟩
        intro k
        cases includeContent <;> simp [DeepCopyMetadata, Meta.get_delete]
        all_goals (split_ifs <;> simp_all)

/-- The results, when there are some, are the results of the documents,
position by position. -/
theorem buildSearchResults_eq_some (parseFloat : List Nat → ParseResult) (includeContent : Bool) :
    ∀ (docs : List Document) (rs : SearchResults),
      buildSearchResultsFromQdrantMatches parseFloat docs includeContent = some rs →
      rs.length = docs.length ∧
      ∀ (i : Nat) (doc : Document), docs[i]? = some doc →
        ∃ r, rs[i]? = some r ∧ buildSearchResult parseFloat doc includeContent = some r := by
  intro docs
  induction docs with
  | nil =>
    intro rs h
    simp [buildSearchResultsFromQdrantMatches] at h
    subst h
    simp
  | cons d ds ih =>
    intro rs h
    rw [buildSearchResultsFromQdrantMatches] at h
    cases hd : buildSearchResult parseFloat d includeContent with
    | none => simp [hd] at h
    | some r =>
      cases hds : buildSearchResultsFromQdrantMatches parseFloat ds includeContent with
      | none => simp [hd, hds] at h
      | some rs' =>
        simp [hd, hds] at h
        subst h
        obtain ⟨hl, hi⟩ := ih rs' hds
        refine ⟨by simp [hl], ?_⟩
        intro i doc hdoc
        cases i with
        | zero =>
          simp at hdoc
          subst hdoc
          exact ⟨r, by simp, hd⟩
        | succ i =>
          simp at hdoc
          obtain ⟨r', hr', hb⟩ := hi i doc hdoc
          exact ⟨r', by simpa using hr', hb⟩

/-- When no document has a malformed `vec` string, the results exist. -/
theorem buildSearchResults_isSome (parseFloat : List Nat → ParseResult) (includeContent : Bool) :
    ∀ (docs : List Document), (∀ doc ∈ docs, WellFormedVector doc) →
      ∃ rs, buildSearchResultsFromQdrantMatches parseFloat docs includeContent = some rs := by
  intro docs
  induction docs with
  | nil => intro _; exact ⟨[], rfl⟩
  | cons d ds ih =>
    intro h
    obtain ⟨r, hr⟩ := buildSearchResult_isSome parseFloat d includeContent
      (h d (List.mem_cons_self _ _))
    obtain ⟨rs, hrs⟩ := ih (fun doc hdoc => h doc (List.mem_cons_of_mem _ hdoc))
    exact ⟨r :: rs, by simp [buildSearchResultsFromQdrantMatches, hr, hrs]⟩

/-- One malformed `vec` string makes the reconstruction panic. -/
theorem buildSearchResults_panics (parseFloat : List Nat → ParseResult) (includeContent : Bool) :
    ∀ (docs : List Document), (∃ doc ∈ docs, ∃ s,
        Meta.getString doc.Properties defaultVectorFieldName = some s ∧ s.length % 4 ≠ 0) →
      buildSearchResultsFromQdrantMatches parseFloat docs includeContent = none := by
  intro docs
  induction docs with
  | nil => rintro ⟨doc, hdoc, -⟩; simp at hdoc
  | cons d ds ih =>
    rintro ⟨doc, hdoc, s, hs, h4⟩
    rw [buildSearchResultsFromQdrantMatches]
    rcases List.mem_cons.mp hdoc with rfl | hmem
    · rw [buildSearchResult_panics parseFloat doc includeContent s hs h4]
    · rw [ih ⟨doc, hmem, s, hs, h4⟩]
      cases buildSearchResult parseFloat d includeContent <;> rfl

theorem bytestofloat64_four (b0 b1 b2 b3 : Nat) :
    bytestofloat64 [b0, b1, b2, b3]
      = some [float64 (Float32frombits
          (b0 % 256 + b1 % 256 * 2 ^ 8 + b2 % 256 * 2 ^ 16 + b3 % 256 * 2 ^ 24))] := by
  simp [bytestofloat64, bytestofloat64Cap, bytestofloat64Loop, Uint32]

/-- The spec's sanitization example: with `IncludeContent = false` the
metadata is exactly `{tag: "x"}`, the score is `0.42` and the vector `[1.0]`. -/
theorem sanitize_example :
    buildSearchResultsFromQdrantMatches ParseFloat [exampleDoc] false
      = some [{ Data := { ID := "doc1", Values := [0x3FF0000000000000],
                          Metadata := [("tag", Value.str (ascii "x"))] },
                Score := 0x3FDAE147AE147AE1 }] := by
  have hp : ParseFloat (ascii "0.42") = (0x3FDAE147AE147AE1, none) := by decide
  have hf : float64 (Float32frombits (0 % 256 + 0 % 256 * 2 ^ 8 + 128 % 256 * 2 ^ 16
      + 63 % 256 * 2 ^ 24)) = 0x3FF0000000000000 := by decide
  have hs : Meta.getString exampleDoc.Properties defaultVectorScoreFieldName
      = some (ascii "0.42") := by decide
  have hv : Meta.getString exampleDoc.Properties defaultVectorFieldName
      = some [0, 0, 128, 63] := by decide
  simp only [buildSearchResultsFromQdrantMatches, buildSearchResult, hs, hv, hp,
    bytestofloat64_four, hf]
  decide

/-- Without a malformed `vec` string the results exist, one per document and
at the same position, each with the identifier and the score of its document. -/
theorem buildSearchResults_order (parseFloat : List Nat → ParseResult) (docs : List Document)
    (includeContent : Bool) (hwf : ∀ doc ∈ docs, WellFormedVector doc) :
    ∃ rs, buildSearchResultsFromQdrantMatches parseFloat docs includeContent = some rs ∧
      rs.length = docs.length ∧
      ∀ (i : Nat) (doc : Document), docs[i]? = some doc →
        ∃ r, rs[i]? = some r ∧ r.Data.ID = doc.Id ∧
          r.Score = (match Meta.getString doc.Properties defaultVectorScoreFieldName with
            | some s => (parseFloat s).1
            | none => 0) := by
  obtain ⟨rs, hrs⟩ := buildSearchResults_isSome parseFloat includeContent docs hwf
  obtain ⟨hlen, hi⟩ := buildSearchResults_eq_some parseFloat includeContent docs rs hrs
  refine ⟨rs, hrs, hlen, ?_⟩
  intro i doc hdoc
  obtain ⟨r, hr, hb⟩ := hi i doc hdoc
  obtain ⟨hid, hscore, -, -⟩ := buildSearchResult_spec parseFloat doc includeContent r hb
  exact ⟨r, hr, hid, hscore⟩

/-- `Search` when the filter is `nil` or a `redisearch.Filter` and the backend
returns documents: one `Search` call on the backend, whose documents are
reconstructed with the `includeContent` flag of the handle. -/
theorem DB.Search_ok {σ : Type} (d : DB σ) (parseFloat : List Nat → ParseResult)
    (values : List F64) (options : Options) (st st1 : σ) (filter : Filter)
    (docs : List Document)
    (hf : assertFilter options.Filter = some filter)
    (hq : d.redisearchClient.search (knnQuery options.TopK
      ((float64to32 values).flatMap (fun f => le32 (Float32bits f))) filter) st
        = (Except.ok docs, st1)) :
    DB.Search d parseFloat values options st =
      match buildSearchResultsFromQdrantMatches parseFloat docs d.includeContent with
      | some results =>
        some { result := Except.ok results, state := st1,
               calls := [Call.search (knnQuery options.TopK
                 ((float64to32 values).flatMap (fun f => le32 (Float32bits f))) filter)] }
      | none => none := by
  unfold DB.Search DB.similaritySearch
  rw [float64tobytes_eq, hf]
  simp only [hq]

/-- The flag `includeValues` of the handle has no effect on `Search`. -/
theorem DB.Search_includeValues {σ : Type} (d : DB σ) (b : Bool)
    (parseFloat : List Nat → ParseResult) (values : List F64) (options : Options) (st : σ) :
    DB.Search { d with includeValues := b } parseFloat values options st
      = DB.Search d parseFloat values options st := rfl

/-! ## Results of a search: metadata, score, order, stored vector -/

/-- C3 (counterexample): a returned document whose `__vec_score` property is
a number, not a string, keeps the key `__vec_score` in the metadata of its
result. -/
theorem sanitize_metadata_counterexample :
    ∃ r, buildSearchResultsFromQdrantMatches ParseFloat [numericScoreDoc] false = some [r] ∧
      Meta.get r.Data.Metadata "__vec_score" = some (Value.float 0x3FDAE147AE147AE1) :=
  ⟨{ Data := { ID := "doc2", Values := [], Metadata := numericScoreDoc.Properties }, Score := 0 },
    by decide, by decide⟩

/-- C3 (amended): for returned documents none of which has a `vec` string of
a length that is not a multiple of four, the results exist, and the metadata
of the result of each document is its raw property mapping without the
reserved content key when `includeContent` is false, without `__vec_score`
when that property is a string, and without `vec` when that property is a
string; every other key is kept with its value. -/
theorem sanitize_metadata (parseFloat : List Nat → ParseResult) (docs : List Document)
    (includeContent : Bool) (hwf : ∀ doc ∈ docs, WellFormedVector doc) :
    ∃ rs, buildSearchResultsFromQdrantMatches parseFloat docs includeContent = some rs ∧
      rs.length = docs.length ∧
      ∀ (i : Nat) (doc : Document), docs[i]? = some doc →
        ∃ r, rs[i]? = some r ∧ ∀ k, Meta.get r.Data.Metadata k =
          if (k = DefaultKeyContent ∧ includeContent = false)
              ∨ (k = defaultVectorScoreFieldName
                  ∧ (Meta.getString doc.Properties defaultVectorScoreFieldName).isSome)
              ∨ (k = defaultVectorFieldName
                  ∧ (Meta.getString doc.Properties defaultVectorFieldName).isSome)
          then none else Meta.get doc.Properties k := by
  obtain ⟨rs, hrs⟩ := buildSearchResults_isSome parseFloat includeContent docs hwf
  obtain ⟨hlen, hi⟩ := buildSearchResults_eq_some parseFloat includeContent docs rs hrs
  refine ⟨rs, hrs, hlen, ?_⟩
  intro i doc hdoc
  obtain ⟨r, hr, hb⟩ := hi i doc hdoc
  obtain ⟨-, -, hmeta, -⟩ := buildSearchResult_spec parseFloat doc includeContent r hb
  exact ⟨r, hr, hmeta⟩

/-- Instance of `sanitize_metadata`: the document of the spec's sanitization
example with `IncludeContent = false`. -/
theorem sanitize_metadata_witness :
    (∀ doc ∈ [exampleDoc], WellFormedVector doc) ∧
    ∃ rs, buildSearchResultsFromQdrantMatches ParseFloat [exampleDoc] false = some rs ∧
      rs.length = [exampleDoc].length ∧
      ∀ (i : Nat) (doc : Document), [exampleDoc][i]? = some doc →
        ∃ r, rs[i]? = some r ∧ ∀ k, Meta.get r.Data.Metadata k =
          if (k = DefaultKeyContent ∧ false = false)
              ∨ (k = defaultVectorScoreFieldName
                  ∧ (Meta.getString doc.Properties defaultVectorScoreFieldName).isSome)
              ∨ (k = defaultVectorFieldName
                  ∧ (Meta.getString doc.Properties defaultVectorFieldName).isSome)
          then none else Meta.get doc.Properties k :=
  ⟨by decide, sanitize_metadata ParseFloat [exampleDoc] false (by decide)⟩

set_option exponentiation.threshold 2000 in
set_option maxRecDepth 1000000 in
/-- C4 (counterexample): the score string `1e400` is a well-formed number out
of range: parsing it fails with `ErrRange`, and the score of the result is
`+Inf`, not `0.0`. -/
theorem score_extraction_counterexample :
    (ParseFloat (ascii "1e400")).2 = some NumError.ErrRange ∧
    ∃ r, buildSearchResultsFromQdrantMatches ParseFloat [hugeScoreDoc] false = some [r] ∧
      r.Score = 0x7FF0000000000000 :=
  ⟨by decide,
    { Data := { ID := "doc3", Values := [], Metadata := [] }, Score := 0x7FF0000000000000 },
    by decide, rfl⟩

/-- C4 (amended): for returned documents none of which has a `vec` string of
a length that is not a multiple of four, the results exist (no error is
raised), and the score of the result of each document is the value that
`strconv.ParseFloat` returns for the `__vec_score` property when that property
is a string, whatever error comes with it, and `0.0` when the property is
absent or is not a string. -/
theorem score_extraction (parseFloat : List Nat → ParseResult) (docs : List Document)
    (includeContent : Bool) (hwf : ∀ doc ∈ docs, WellFormedVector doc) :
    ∃ rs, buildSearchResultsFromQdrantMatches parseFloat docs includeContent = some rs ∧
      rs.length = docs.length ∧
      ∀ (i : Nat) (doc : Document), docs[i]? = some doc →
        ∃ r, rs[i]? = some r ∧
          r.Score = (match Meta.get doc.Properties defaultVectorScoreFieldName with
            | some (Value.str s) => (parseFloat s).1
            | _ => 0) := by
  obtain ⟨rs, hrs⟩ := buildSearchResults_isSome parseFloat includeContent docs hwf
  obtain ⟨hlen, hi⟩ := buildSearchResults_eq_some parseFloat includeContent docs rs hrs
  refine ⟨rs, hrs, hlen, ?_⟩
  intro i doc hdoc
  obtain ⟨r, hr, hb⟩ := hi i doc hdoc
  obtain ⟨-, hscore, -, -⟩ := buildSearchResult_spec parseFloat doc includeContent r hb
  refine ⟨r, hr, ?_⟩
  rw [hscore]
  unfold Meta.getString
  cases Meta.get doc.Properties defaultVectorScoreFieldName with
  | none => rfl
  | some v => cases v <;> rfl

/-- Instance of `score_extraction`: a string score, a numeric score and a
score string out of range. -/
theorem score_extraction_witness :
    (∀ doc ∈ [exampleDoc, numericScoreDoc, hugeScoreDoc], WellFormedVector doc) ∧
    ∃ rs, buildSearchResultsFromQdrantMatches ParseFloat
        [exampleDoc, numericScoreDoc, hugeScoreDoc] true = some rs ∧
      rs.length = [exampleDoc, numericScoreDoc, hugeScoreDoc].length ∧
      ∀ (i : Nat) (doc : Document), [exampleDoc, numericScoreDoc, hugeScoreDoc][i]? = some doc →
        ∃ r, rs[i]? = some r ∧
          r.Score = (match Meta.get doc.Properties defaultVectorScoreFieldName with
            | some (Value.str s) => (ParseFloat s).1
            | _ => 0) :=
  ⟨by decide, score_extraction ParseFloat _ true (by decide)⟩

/-- C5 (failing input): the backend returns three ranked documents, the
second with a stored vector string of five bytes; `Search` does not return
three results in the order received, it panics inside `bytestofloat64`. -/
theorem search_order_failing_input :
    DB.Search
      (New { RedisearchClient := fixedBackend [exampleDoc, malformedVectorDoc, exampleDoc],
             IncludeContent := true, IncludeValues := true, CreateIndex := none })
      ParseFloat [] { TopK := 3, Filter := FilterArg.nil } () = none := by
  rw [DB.Search_ok _ ParseFloat [] { TopK := 3, Filter := FilterArg.nil } () ()
    { repr := "" } [exampleDoc, malformedVectorDoc, exampleDoc] rfl rfl]
  rw [buildSearchResults_panics ParseFloat _ [exampleDoc, malformedVectorDoc, exampleDoc]
    ⟨malformedVectorDoc, by simp, [0, 0, 128, 63, 0], by decide, by decide⟩]

/-- C9 (failing input): a handle constructed with `IncludeValues = false`
searches a backend that returns a document with the stored vector `[1.0]`;
the result carries the decoded vector `[1.0]`, not an empty one. -/
theorem search_includeValues_failing_input :
    (DB.Search
      (New { RedisearchClient := fixedBackend [exampleDoc],
             IncludeContent := false, IncludeValues := false, CreateIndex := none })
      ParseFloat [] { TopK := 1, Filter := FilterArg.nil } ()).map (fun out => out.result)
    = some (Except.ok [{ Data := { ID := "doc1", Values := [0x3FF0000000000000],
                                   Metadata := [("tag", Value.str (ascii "x"))] },
                         Score := 0x3FDAE147AE147AE1 }]) := by
  rw [DB.Search_ok _ ParseFloat [] { TopK := 1, Filter := FilterArg.nil } () ()
    { repr := "" } [exampleDoc] rfl rfl]
  simp only [New, sanitize_example, Option.map_some']

/-- C10 (failing input): decoding a stored vector string of five bytes does
not report an error: `bytestofloat64` panics on it whatever the capacity of
the slice, and so does the reconstruction of the results of a search that
returned a document with that string. -/
theorem decode_malformed_failing_input :
    (∀ spare, bytestofloat64Cap [0, 0, 128, 63, 0] spare = none) ∧
    buildSearchResultsFromQdrantMatches ParseFloat [malformedVectorDoc] true = none :=
  ⟨fun spare => bytestofloat64Cap_panics _ spare (by decide),
    buildSearchResults_panics ParseFloat true [malformedVectorDoc]
      ⟨malformedVectorDoc, by simp, [0, 0, 128, 63, 0], by decide, by decide⟩⟩

/-! ## The index lifecycle check -/

/-- When `Info` fails with "Unknown index name" and `List` succeeds, the check
issues `CreateIndex` and returns its result, whatever `List` returned. -/
theorem createIndexIfRequired_unknown {σ : Type} (d : DB σ) (opts : CreateIndexOptions)
    (st st1 st2 st3 : σ) (e : Err) (l : List String) (err : Option Err)
    (hopts : d.createIndex = some opts)
    (h1 : d.redisearchClient.info st = (Except.error e, st1))
    (he : e.Error = errUnknownIndexName)
    (h2 : d.redisearchClient.list st1 = (Except.ok l, st2))
    (h3 : d.redisearchClient.createIndex (vectorSchema opts) st2 = (err, st3)) :
    d.createIndexIfRequired st =
      { result := err, state := st3,
        calls := [Call.info, Call.list, Call.createIndex (vectorSchema opts)] } := by
  unfold DB.createIndexIfRequired
  simp [hopts, h1, he, h2, h3]

/-- When `Info` succeeds with a non-empty name that `List` contains, the check
returns success after the two queries. -/
theorem createIndexIfRequired_present {σ : Type} (d : DB σ) (opts : CreateIndexOptions)
    (st st1 st2 : σ) (info : IndexInfo) (l : List String)
    (hopts : d.createIndex = some opts)
    (h1 : d.redisearchClient.info st = (Except.ok info, st1))
    (h2 : d.redisearchClient.list st1 = (Except.ok l, st2))
    (hne : info.Name ≠ "") (hmem : info.Name ∈ l) :
    d.createIndexIfRequired st =
      { result := none, state := st2, calls := [Call.info, Call.list] } := by
  unfold DB.createIndexIfRequired
  have hpos : 0 < l.length := List.length_pos_of_mem hmem
  have hany : (l.any fun index => index == info.Name) = true := by
    rw [List.any_eq_true]
    exact ⟨info.Name, hmem, by simp⟩
  simp [hopts, h1, h2, hne, hpos, hany]

/-- C6 (counterexample): the index whose name is the empty string. It is
absent at first (`Info` fails with "Unknown index name", `List` is empty), and
`CreateIndex` makes it present (`Info` then returns its name, `List` contains
it). The first lifecycle check issues one `CreateIndex` call and succeeds; the
second issues `CreateIndex` again and returns the error of the backend. -/
theorem idempotent_creation_counterexample :
    (namedBackend "").info [] = (Except.error (Err.msg "Unknown index name"), []) ∧
    (namedBackend "").list [] = (Except.ok [], []) ∧
    (namedBackend "").info [""] = (Except.ok { Name := "", DocCount := 0 }, [""]) ∧
    (namedBackend "").list [""] = (Except.ok [""], [""]) ∧
    DB.createIndexIfRequired
      (New { RedisearchClient := namedBackend "", IncludeContent := true, IncludeValues := true,
             CreateIndex := some { Dimension := 3, Distance := Distance.DistanceCosine } }) []
      = { result := none, state := [""],
          calls := [Call.info, Call.list,
            Call.createIndex (vectorSchema { Dimension := 3, Distance := Distance.DistanceCosine })] } ∧
    DB.createIndexIfRequired
      (New { RedisearchClient := namedBackend "", IncludeContent := true, IncludeValues := true,
             CreateIndex := some { Dimension := 3, Distance := Distance.DistanceCosine } }) [""]
      = { result := some (Err.msg "Index already exists"), state := [""],
          calls := [Call.info, Call.list,
            Call.createIndex (vectorSchema { Dimension := 3, Distance := Distance.DistanceCosine })] } :=
  ⟨rfl, rfl, rfl, rfl, rfl, rfl⟩

/-- C6 (amended): with index-creation options configured, a backend in which
the index is absent at first (`Info` fails with "Unknown index name", `List`
succeeds) and in which `CreateIndex` succeeds and makes the index present
(`Info` then returns its name, which is not the empty string, and `List`
contains that name): two lifecycle checks in sequence both return no error and
issue exactly one `CreateIndex` call in total, one in the first check and none
in the second. -/
theorem idempotent_creation {σ : Type} (d : DB σ) (opts : CreateIndexOptions)
    (st0 st1 st2 st3 st4 st5 : σ) (e : Err) (l l' : List String) (info : IndexInfo)
    (hopts : d.createIndex = some opts)
    (h1 : d.redisearchClient.info st0 = (Except.error e, st1))
    (he : e.Error = errUnknownIndexName)
    (h2 : d.redisearchClient.list st1 = (Except.ok l, st2))
    (h3 : d.redisearchClient.createIndex (vectorSchema opts) st2 = (none, st3))
    (h4 : d.redisearchClient.info st3 = (Except.ok info, st4))
    (h5 : d.redisearchClient.list st4 = (Except.ok l', st5))
    (hmem : info.Name ∈ l') (hne : info.Name ≠ "") :
    (d.createIndexIfRequired st0).result = none ∧
    countCreateIndex (d.createIndexIfRequired st0).calls = 1 ∧
    (d.createIndexIfRequired (d.createIndexIfRequired st0).state).result = none ∧
    countCreateIndex (d.createIndexIfRequired (d.createIndexIfRequired st0).state).calls = 0 := by
  have hfirst := createIndexIfRequired_unknown d opts st0 st1 st2 st3 e l none hopts h1 he h2 h3
  have hsecond := createIndexIfRequired_present d opts st3 st4 st5 info l' hopts h4 h5 hne hmem
  rw [hfirst]
  simp only [hsecond]
  simp [countCreateIndex]

/-- Instance of `idempotent_creation`: the backend of the index `idx`, empty
at first. -/
theorem idempotent_creation_witness :
    (DB.createIndexIfRequired
      (New { RedisearchClient := namedBackend "idx", IncludeContent := true,
             IncludeValues := true,
             CreateIndex := some { Dimension := 3, Distance := Distance.DistanceCosine } })
      []).result = none ∧
    countCreateIndex (DB.createIndexIfRequired
      (New { RedisearchClient := namedBackend "idx", IncludeContent := true,
             IncludeValues := true,
             CreateIndex := some { Dimension := 3, Distance := Distance.DistanceCosine } })
      []).calls = 1 ∧
    (DB.createIndexIfRequired
      (New { RedisearchClient := namedBackend "idx", IncludeContent := true,
             IncludeValues := true,
             CreateIndex := some { Dimension := 3, Distance := Distance.DistanceCosine } })
      (DB.createIndexIfRequired
        (New { RedisearchClient := namedBackend "idx", IncludeContent := true,
               IncludeValues := true,
               CreateIndex := some { Dimension := 3, Distance := Distance.DistanceCosine } })
        []).state).result = none ∧
    countCreateIndex (DB.createIndexIfRequired
      (New { RedisearchClient := namedBackend "idx", IncludeContent := true,
             IncludeValues := true,
             CreateIndex := some { Dimension := 3, Distance := Distance.DistanceCosine } })
      (DB.createIndexIfRequired
        (New { RedisearchClient := namedBackend "idx", IncludeContent := true,
               IncludeValues := true,
               CreateIndex := some { Dimension := 3, Distance := Distance.DistanceCosine } })
        []).state).calls = 0 :=
  idempotent_creation
    (New { RedisearchClient := namedBackend "idx", IncludeContent := true, IncludeValues := true,
           CreateIndex := some { Dimension := 3, Distance := Distance.DistanceCosine } })
    { Dimension := 3, Distance := Distance.DistanceCosine }
    [] [] [] ["idx"] ["idx"] ["idx"] (Err.msg "Unknown index name") [] ["idx"]
    { Name := "idx", DocCount := 0 } rfl rfl rfl rfl rfl rfl rfl (by decide) (by decide)

/-- C7 (counterexample): the creation race. `Info` fails with "Unknown index
name", a concurrent caller creates the index, and the following `List`
contains the expected name `idx`. The lifecycle check still issues
`CreateIndex`, and the duplicate-creation error of the backend is returned to
the caller. -/
theorem creation_race_counterexample :
    (racingBackend "idx").info [] = (Except.error (Err.msg "Unknown index name"), ["idx"]) ∧
    (racingBackend "idx").list ["idx"] = (Except.ok ["idx"], ["idx"]) ∧
    DB.createIndexIfRequired
      (New { RedisearchClient := racingBackend "idx", IncludeContent := true,
             IncludeValues := true,
             CreateIndex := some { Dimension := 3, Distance := Distance.DistanceCosine } }) []
      = { result := some (Err.msg "Index already exists"), state := ["idx"],
          calls := [Call.info, Call.list,
            Call.createIndex (vectorSchema { Dimension := 3, Distance := Distance.DistanceCosine })] } :=
  ⟨rfl, rfl, rfl⟩

/-- C7 (amended): with index-creation options configured, whenever `Info`
fails with "Unknown index name" and `List` succeeds, the lifecycle check issues
one `CreateIndex` call and returns the result of that call, whether or not the
enumeration contains an index with the expected name; the check returns
success without a `CreateIndex` call when `Info` succeeds with a name that is
not the empty string and that the enumeration contains. -/
theorem creation_race {σ : Type} (d : DB σ) (opts : CreateIndexOptions)
    (hopts : d.createIndex = some opts) :
    (∀ (st st1 st2 st3 : σ) (e : Err) (l : List String) (err : Option Err),
      d.redisearchClient.info st = (Except.error e, st1) →
      e.Error = errUnknownIndexName →
      d.redisearchClient.list st1 = (Except.ok l, st2) →
      d.redisearchClient.createIndex (vectorSchema opts) st2 = (err, st3) →
      d.createIndexIfRequired st =
        { result := err, state := st3,
          calls := [Call.info, Call.list, Call.createIndex (vectorSchema opts)] }) ∧
    (∀ (st st1 st2 : σ) (info : IndexInfo) (l : List String),
      d.redisearchClient.info st = (Except.ok info, st1) →
      d.redisearchClient.list st1 = (Except.ok l, st2) →
      info.Name ≠ "" → info.Name ∈ l →
      d.createIndexIfRequired st =
        { result := none, state := st2, calls := [Call.info, Call.list] }) :=
  ⟨fun st st1 st2 st3 e l err h1 he h2 h3 =>
      createIndexIfRequired_unknown d opts st st1 st2 st3 e l err hopts h1 he h2 h3,
    fun st st1 st2 info l h1 h2 hne hmem =>
      createIndexIfRequired_present d opts st st1 st2 info l hopts h1 h2 hne hmem⟩

/-- Instance of `creation_race`: the racing backend of the index `idx`, from
the state without the index and from the state with it. -/
theorem creation_race_witness :
    DB.createIndexIfRequired
      (New { RedisearchClient := racingBackend "idx", IncludeContent := true,
             IncludeValues := true,
             CreateIndex := some { Dimension := 3, Distance := Distance.DistanceCosine } }) []
      = { result := some (Err.msg "Index already exists"), state := ["idx"],
          calls := [Call.info, Call.list,
            Call.createIndex (vectorSchema { Dimension := 3, Distance := Distance.DistanceCosine })] } ∧
    DB.createIndexIfRequired
      (New { RedisearchClient := racingBackend "idx", IncludeContent := true,
             IncludeValues := true,
             CreateIndex := some { Dimension := 3, Distance := Distance.DistanceCosine } }) ["idx"]
      = { result := none, state := ["idx"], calls := [Call.info, Call.list] } :=
  ⟨(creation_race
      (New { RedisearchClient := racingBackend "idx", IncludeContent := true,
             IncludeValues := true,
             CreateIndex := some { Dimension := 3, Distance := Distance.DistanceCosine } })
      { Dimension := 3, Distance := Distance.DistanceCosine } rfl).1
      [] ["idx"] ["idx"] ["idx"] (Err.msg "Unknown index name") ["idx"]
      (some (Err.msg "Index already exists")) rfl rfl rfl rfl,
   (creation_race
      (New { RedisearchClient := racingBackend "idx", IncludeContent := true,
             IncludeValues := true,
             CreateIndex := some { Dimension := 3, Distance := Distance.DistanceCosine } })
      { Dimension := 3, Distance := Distance.DistanceCosine } rfl).2
      ["idx"] ["idx"] ["idx"] { Name := "idx", DocCount := 0 } ["idx"] rfl rfl
      (by decide) (by decide)⟩

/-! ## Insert -/

theorem UUID.String_ne_empty (u : UUID) : u.String ≠ "" := by
  intro h
  have hl := congrArg String.length h
  simp only [UUID.String, String.length_append] at hl
  have h1 : "-".length = 1 := rfl
  have h0 : "".length = 0 := rfl
  omega

theorem foldl_Set_Id (m : Meta) :
    ∀ d : Document, (m.foldl (fun doc kv => doc.Set kv.1 kv.2) d).Id = d.Id := by
  induction m with
  | nil => intro d; rfl
  | cons kv rest ih => intro d; rw [List.foldl_cons, ih]; rfl

/-- The backend calls of the lifecycle check: none, `Info`, `Info` and `List`,
or `Info`, `List` and `CreateIndex`. -/
theorem createIndexIfRequired_calls {σ : Type} (d : DB σ) (st : σ) :
    (d.createIndexIfRequired st).calls = [] ∨
    (d.createIndexIfRequired st).calls = [Call.info] ∨
    (d.createIndexIfRequired st).calls = [Call.info, Call.list] ∨
    ∃ schema, (d.createIndexIfRequired st).calls
      = [Call.info, Call.list, Call.createIndex schema] := by
  cases hc : d.createIndex with
  | none =>
    left
    unfold DB.createIndexIfRequired
    simp only [hc]
  | some opts =>
    rcases h1 : d.redisearchClient.info st with ⟨infoResult, st1⟩
    rcases h2 : d.redisearchClient.list st1 with ⟨listResult, st2⟩
    rcases h3 : d.redisearchClient.createIndex (vectorSchema opts) st2 with ⟨err, st3⟩
    unfold DB.createIndexIfRequired
    simp only [hc, h1, h2, h3]
    cases infoResult with
    | error e =>
      by_cases he : e.Error = errUnknownIndexName
      · cases listResult with
        | error e2 => simp [he]
        | ok l => simp [he]
      · simp [he]
    | ok info =>
      cases listResult with
      | error e2 => simp
      | ok l =>
        simp only []
        split_ifs <;> simp

/-- The lifecycle check submits no documents. -/
theorem createIndexIfRequired_indexCalls {σ : Type} (d : DB σ) (st : σ) :
    indexCalls (d.createIndexIfRequired st).calls = [] := by
  rcases createIndexIfRequired_calls d st with h | h | h | ⟨schema, h⟩ <;>
    rw [h] <;> rfl

theorem foldl_Set_Score (m : Meta) :
    ∀ d : Document, (m.foldl (fun doc kv => doc.Set kv.1 kv.2) d).Score = d.Score := by
  induction m with
  | nil => intro d; rfl
  | cons kv rest ih => intro d; rw [List.foldl_cons, ih]; rfl

theorem foldl_Set_Payload (m : Meta) :
    ∀ d : Document, (m.foldl (fun doc kv => doc.Set kv.1 kv.2) d).Payload = d.Payload := by
  induction m with
  | nil => intro d; rfl
  | cons kv rest ih => intro d; rw [List.foldl_cons, ih]; rfl

theorem Meta.get_append (l1 l2 : Meta) (k : String) :
    Meta.get (l1 ++ l2) k =
      match Meta.get l1 k with
      | some v => some v
      | none => Meta.get l2 k := by
  induction l1 with
  | nil => rfl
  | cons p rest ih =>
    obtain ⟨a, v⟩ := p
    by_cases h : a = k
    · simp [Meta.get, h]
    · rw [List.cons_append]
      simp only [Meta.get, h, if_false]
      exact ih

theorem Meta.get_set (m : Meta) (k0 k : String) (v : Value) :
    Meta.get (Meta.set m k0 v) k = if k = k0 then some v else Meta.get m k := by
  unfold Meta.set
  by_cases h : k = k0
  · subst h; simp [Meta.get]
  · have h' : ¬ k0 = k := fun e => h e.symm
    simp [Meta.get, h', Meta.get_delete, h]

/-- Storing the bindings of a map one after the other: a key ends with the
value of its last binding, and the keys not bound keep their value. -/
theorem foldl_Set_Properties (m : Meta) :
    ∀ (d : Document) (k : String),
      Meta.get (m.foldl (fun doc kv => doc.Set kv.1 kv.2) d).Properties k =
        match Meta.get m.reverse k with
        | some v => some v
        | none => Meta.get d.Properties k := by
  induction m with
  | nil => intro d k; rfl
  | cons p rest ih =>
    intro d k
    obtain ⟨a, v⟩ := p
    rw [List.foldl_cons, ih, List.reverse_cons, Meta.get_append]
    cases Meta.get rest.reverse k with
    | some w => rfl
    | none =>
      simp only [Document.Set, Meta.get_set, Meta.get]
      by_cases h : k = a
      · subst h; simp
      · have h' : ¬ a = k := fun e => h e.symm
        simp [h, h', Meta.get_delete]

/-- A map, which binds no key twice, read from either end gives the same
value. -/
theorem Meta.get_reverse (m : Meta) (hm : (m.map Prod.fst).Nodup) (k : String) :
    Meta.get m.reverse k = Meta.get m k := by
  induction m with
  | nil => rfl
  | cons p rest ih =>
    obtain ⟨a, v⟩ := p
    rw [List.map_cons, List.nodup_cons] at hm
    rw [List.reverse_cons, Meta.get_append, ih hm.2]
    by_cases h : a = k
    · subst h
      have hnone : Meta.get rest a = none := by
        have hnot := hm.1
        clear ih hm
        induction rest with
        | nil => rfl
        | cons q rest' ih' =>
          obtain ⟨b, w⟩ := q
          simp only [List.map_cons, List.mem_cons, not_or] at hnot
          have hb : ¬ b = a := fun e => hnot.1 e.symm
          simp only [Meta.get, hb, if_false]
          exact ih' hnot.2
      simp [hnone, Meta.get]
    · cases hr : Meta.get rest k with
      | some w => simp [Meta.get, h, hr]
      | none => simp [Meta.get, h, hr]

/-- Building a document never panics. The document carries the identifier,
the score `1.0`, no payload, the encoded vector under `vec` and the metadata
of the record under the other keys. -/
theorem buildDocument_spec (dataID : String) (data : Data) :
    ∃ doc bytes, buildDocument dataID data = some doc ∧
      float64tobytes data.Values = some bytes ∧
      doc.Id = dataID ∧ doc.Score = 0x3F800000 ∧ doc.Payload = [] ∧
      ∀ k, Meta.get doc.Properties k =
        if k = defaultVectorFieldName then some (Value.bytes bytes)
        else Meta.get data.Metadata.reverse k := by
  refine ⟨(data.Metadata.foldl (fun doc kv => doc.Set kv.1 kv.2)
      (NewDocument dataID 0x3F800000)).Set defaultVectorFieldName
      (Value.bytes ((float64to32 data.Values).flatMap (fun f => le32 (Float32bits f)))),
    _, ?_, float64tobytes_eq data.Values, ?_, ?_, ?_, ?_⟩
  · unfold buildDocument
    rw [float64tobytes_eq]
  · exact foldl_Set_Id data.Metadata (NewDocument dataID 0x3F800000)
  · exact foldl_Set_Score data.Metadata (NewDocument dataID 0x3F800000)
  · exact foldl_Set_Payload data.Metadata (NewDocument dataID 0x3F800000)
  · intro k
    have hset : ∀ (d : Document) (n : String) (v : Value),
        (d.Set n v).Properties = Meta.set d.Properties n v := fun _ _ _ => rfl
    rw [hset, Meta.get_set]
    by_cases h : k = defaultVectorFieldName
    · rw [if_pos h, if_pos h]
    · rw [if_neg h, if_neg h, foldl_Set_Properties]
      cases Meta.get data.Metadata.reverse k <;> rfl

/-- The documents built by the loop of `Insert` when identifier generation
succeeds: one per record, in order, appended to the documents so far. `gs`
lists the states of the identifier source before each record and after the
last one: a record with an ID leaves the source as it is, a record without
one takes the identifier that the source gives in its current state and
moves the source to its next state. -/
theorem insertDocuments_spec {γ : Type} (newUUID : UUIDSource γ) :
    ∀ (datas : List Data) (g : γ) (acc : List Document), UUIDsSucceed newUUID datas g →
      ∃ (docs : List Document) (gs : List γ) (g' : γ),
        insertDocuments newUUID datas g acc = some (Except.ok (acc ++ docs), g') ∧
        docs.length = datas.length ∧
        gs.length = datas.length + 1 ∧ gs[0]? = some g ∧ gs[datas.length]? = some g' ∧
        ∀ (i : Nat) (data : Data), datas[i]? = some data →
          ∃ (doc : Document) (gi gi' : γ) (bytes : List Nat),
            docs[i]? = some doc ∧ gs[i]? = some gi ∧ gs[i + 1]? = some gi' ∧
            (data.ID ≠ "" → doc.Id = data.ID ∧ gi' = gi) ∧
            (data.ID = "" → doc.Id ≠ "" ∧
              ∃ u, newUUID gi = (Except.ok u, gi') ∧ doc.Id = u.String) ∧
            doc.Score = 0x3F800000 ∧ doc.Payload = [] ∧
            float64tobytes data.Values = some bytes ∧
            ∀ k, Meta.get doc.Properties k =
              if k = defaultVectorFieldName then some (Value.bytes bytes)
              else Meta.get data.Metadata.reverse k := by
  intro datas
  induction datas with
  | nil =>
    intro g acc _
    exact ⟨[], [g], g, by simp [insertDocuments], rfl, rfl, by simp, by simp, by simp⟩
  | cons data rest ih =>
    intro g acc hgen
    have hstep : ∃ (doc : Document) (g1 : γ) (bytes : List Nat),
        insertDocument newUUID data g = some (Except.ok doc, g1) ∧
        UUIDsSucceed newUUID rest g1 ∧
        (data.ID ≠ "" → doc.Id = data.ID ∧ g1 = g) ∧
        (data.ID = "" → doc.Id ≠ "" ∧
          ∃ u, newUUID g = (Except.ok u, g1) ∧ doc.Id = u.String) ∧
        doc.Score = 0x3F800000 ∧ doc.Payload = [] ∧
        float64tobytes data.Values = some bytes ∧
        ∀ k, Meta.get doc.Properties k =
          if k = defaultVectorFieldName then some (Value.bytes bytes)
          else Meta.get data.Metadata.reverse k := by
      by_cases hid : data.ID = ""
      · rcases hu : newUUID g with ⟨res, g1⟩
        cases res with
        | error e => simp [UUIDsSucceed, hid, hu] at hgen
        | ok u =>
          simp only [UUIDsSucceed, hid, if_true, hu] at hgen
          obtain ⟨doc, bytes, hdoc, hbytes, hdid, hscore, hpay, hprops⟩ :=
            buildDocument_spec u.String data
          refine ⟨doc, g1, bytes, ?_, hgen, fun h => absurd hid h, fun _ => ?_,
            hscore, hpay, hbytes, hprops⟩
          · simp only [insertDocument, hid, if_true, hu, hdoc]
          · exact ⟨by rw [hdid]; exact UUID.String_ne_empty u, u, rfl, hdid⟩
      · simp only [UUIDsSucceed, hid, if_false] at hgen
        obtain ⟨doc, bytes, hdoc, hbytes, hdid, hscore, hpay, hprops⟩ :=
          buildDocument_spec data.ID data
        refine ⟨doc, g, bytes, ?_, hgen, fun _ => ⟨hdid, rfl⟩, fun h => absurd h hid,
          hscore, hpay, hbytes, hprops⟩
        simp only [insertDocument, hid, if_false, hdoc]
    obtain ⟨doc, g1, bytes, hdoc, hrest, hkeep, hnew, hcontent⟩ := hstep
    obtain ⟨docs, gs, g2, hdocs, hlen, hgl, hg0, hglast, hall⟩ := ih g1 (acc ++ [doc]) hrest
    refine ⟨doc :: docs, g :: gs, g2, ?_, by simp [hlen], by simp [hgl], by simp, ?_, ?_⟩
    · rw [insertDocuments, hdoc]
      simpa using hdocs
    · simpa using hglast
    · intro i data' hi
      cases i with
      | zero =>
        simp at hi
        subst hi
        exact ⟨doc, g, g1, bytes, by simp, by simp, by simpa using hg0, hkeep, hnew, hcontent⟩
      | succ i =>
        simp at hi
        obtain ⟨doc', gi, gi', bytes', hd', hgi, hgi', hrest'⟩ := hall i data' hi
        exact ⟨doc', gi, gi', bytes', by simpa using hd', by simpa using hgi,
          by simpa using hgi', hrest'⟩

/-- C8: when the lifecycle check succeeds and identifier generation succeeds,
`Insert` does not panic and submits the documents to the backend in a single
batch: it issues exactly one `Index` call, after the calls of the lifecycle
check and in the state the check left, and returns the error of that call
(wrapped) and the state of the backend after it. The batch holds one document
per record, in the order of the records. `gs` lists the states of the
identifier source before each record and after the last one. The document of
a record with a non-empty ID carries exactly that ID and leaves the source as
it is; the document of a record with an empty ID carries the identifier that
`uuid.NewUUID` gives in the state the source has reached, which moves the
source to its next state, and that identifier is not empty. Every document
has the score `1.0`, no payload, the encoded vector of its record under `vec`
and the metadata of its record under the other keys. -/
theorem insert_identifiers {σ γ : Type} (d : DB σ) (newUUID : UUIDSource γ)
    (datas : List Data) (st : σ) (g : γ)
    (hlife : (d.createIndexIfRequired st).result = none)
    (hgen : UUIDsSucceed newUUID datas g) :
    ∃ (documents : List Document) (gs : List γ) (g' : γ),
      DB.Insert d newUUID datas st g =
        some ({ result := Option.map Err.internal
                  (d.redisearchClient.index documents (d.createIndexIfRequired st).state).1,
                state := (d.redisearchClient.index documents (d.createIndexIfRequired st).state).2,
                calls := (d.createIndexIfRequired st).calls ++ [Call.index documents] }, g') ∧
      indexCalls ((d.createIndexIfRequired st).calls ++ [Call.index documents]) = [documents] ∧
      documents.length = datas.length ∧
      gs.length = datas.length + 1 ∧ gs[0]? = some g ∧ gs[datas.length]? = some g' ∧
      ∀ (i : Nat) (data : Data), datas[i]? = some data →
        ∃ (doc : Document) (gi gi' : γ) (bytes : List Nat),
          documents[i]? = some doc ∧ gs[i]? = some gi ∧ gs[i + 1]? = some gi' ∧
          (data.ID ≠ "" → doc.Id = data.ID ∧ gi' = gi) ∧
          (data.ID = "" → doc.Id ≠ "" ∧
            ∃ u, newUUID gi = (Except.ok u, gi') ∧ doc.Id = u.String) ∧
          doc.Score = 0x3F800000 ∧ doc.Payload = [] ∧
          float64tobytes data.Values = some bytes ∧
          ∀ k, Meta.get doc.Properties k =
            if k = defaultVectorFieldName then some (Value.bytes bytes)
            else Meta.get data.Metadata.reverse k := by
  obtain ⟨docs, gs, g', hdocs, hlen, hgl, hg0, hglast, hall⟩ :=
    insertDocuments_spec newUUID datas g [] hgen
  rw [List.nil_append] at hdocs
  have hcalls : indexCalls ((d.createIndexIfRequired st).calls ++ [Call.index docs]) = [docs] := by
    have := createIndexIfRequired_indexCalls d st
    simp only [indexCalls] at this ⊢
    rw [List.filterMap_append, this]
    rfl
  refine ⟨docs, gs, g', ?_, hcalls, hlen, hgl, hg0, hglast, hall⟩
  rcases hidx : d.redisearchClient.index docs (d.createIndexIfRequired st).state with ⟨err, st1⟩
  unfold DB.Insert
  simp only [hlife, hdocs, hidx]
  cases err <;> rfl

/-- Instance of `insert_identifiers`: the three records of `exampleRecords`
inserted in the empty `storingBackend`, with the identifier source
`counterUUID` in state 7. -/
theorem insert_identifiers_witness :
    (DB.createIndexIfRequired
      (New { RedisearchClient := storingBackend, IncludeContent := true,
             IncludeValues := true, CreateIndex := none }) []).result = none ∧
    UUIDsSucceed counterUUID exampleRecords 7 ∧
    ∃ (documents : List Document) (gs : List Nat) (g' : Nat),
      DB.Insert
        (New { RedisearchClient := storingBackend, IncludeContent := true,
               IncludeValues := true, CreateIndex := none })
        counterUUID exampleRecords [] 7 =
        some ({ result := Option.map Err.internal (storingBackend.index documents []).1,
                state := (storingBackend.index documents []).2,
                calls := [] ++ [Call.index documents] }, g') ∧
      indexCalls ([] ++ [Call.index documents]) = [documents] ∧
      documents.length = exampleRecords.length ∧
      gs.length = exampleRecords.length + 1 ∧ gs[0]? = some 7 ∧
      gs[exampleRecords.length]? = some g' ∧
      ∀ (i : Nat) (data : Data), exampleRecords[i]? = some data →
        ∃ (doc : Document) (gi gi' : Nat) (bytes : List Nat),
          documents[i]? = some doc ∧ gs[i]? = some gi ∧ gs[i + 1]? = some gi' ∧
          (data.ID ≠ "" → doc.Id = data.ID ∧ gi' = gi) ∧
          (data.ID = "" → doc.Id ≠ "" ∧
            ∃ u, counterUUID gi = (Except.ok u, gi') ∧ doc.Id = u.String) ∧
          doc.Score = 0x3F800000 ∧ doc.Payload = [] ∧
          float64tobytes data.Values = some bytes ∧
          ∀ k, Meta.get doc.Properties k =
            if k = defaultVectorFieldName then some (Value.bytes bytes)
            else Meta.get data.Metadata.reverse k :=
  ⟨rfl, by simp [UUIDsSucceed, counterUUID, exampleRecords],
    insert_identifiers
      (New { RedisearchClient := storingBackend, IncludeContent := true,
             IncludeValues := true, CreateIndex := none })
      counterUUID exampleRecords [] 7 rfl
      (by simp [UUIDsSucceed, counterUUID, exampleRecords])⟩

/-- The run of `Insert` on `exampleRecords`: one batch of three documents;
the first keeps the ID `a`, the two others get the identifiers that the
source gives in its states 7 and 8; the source ends in state 9 and the
backend holds the three documents. -/
theorem insert_example :
    DB.Insert
      (New { RedisearchClient := storingBackend, IncludeContent := true,
             IncludeValues := true, CreateIndex := none })
      counterUUID exampleRecords [] 7 =
    some ({ result := none,
            state :=
              [{ Id := "a", Score := 0x3F800000, Payload := [],
                 Properties := [("vec", Value.bytes [0, 0, 128, 63]),
                                ("tag", Value.str (ascii "x"))] },
               { Id := "07070707-0707-0707-0707-070707070707", Score := 0x3F800000,
                 Payload := [], Properties := [("vec", Value.bytes [0, 0, 128, 63])] },
               { Id := "08080808-0808-0808-0808-080808080808", Score := 0x3F800000,
                 Payload := [], Properties := [("vec", Value.bytes [])] }],
            calls := [Call.index
              [{ Id := "a", Score := 0x3F800000, Payload := [],
                 Properties := [("vec", Value.bytes [0, 0, 128, 63]),
                                ("tag", Value.str (ascii "x"))] },
               { Id := "07070707-0707-0707-0707-070707070707", Score := 0x3F800000,
                 Payload := [], Properties := [("vec", Value.bytes [0, 0, 128, 63])] },
               { Id := "08080808-0808-0808-0808-080808080808", Score := 0x3F800000,
                 Payload := [], Properties := [("vec", Value.bytes [])] }]] }, 9) := by
  rfl


end LinGoPipes
